import Mathlib

/-!
# OpenMW launcher graphics page (`apps/launcher/graphicspage.cpp`)

A shallow embedding of the launcher's graphics page: the aspect-ratio
arithmetic, the enumeration of display modes, the synchronisation of the
widgets with the settings store and the two slots that enable and disable
dependent controls.

Conventions of the embedding.

* A C++ `int` is an `Int`.  The only arithmetic in the file is the division of
  a mode's width and height by their greatest common divisor; for every `int`
  but `INT_MIN` (whose absolute value is no `int`) the results stay in the range
  of `int`.  A division by zero, undefined in C++, is the result `none`.
* A `QString` is a `String`; the functions that scan text work on its list of
  characters.
* Library calls (Qt, SDL, Boost, libc) are modelled by their documented
  behaviour; each model says what it stands for.
* A function that shows a `QMessageBox` returns (or records in the page) the
  boxes it has shown.
-/

namespace OpenMW

/-! ## Library models: Boost, libc, Qt text -/

/-- Library `boost::math::gcd` on `int`, by its contract: the non-negative greatest
common divisor of the two numbers, `0` only for `gcd (0, 0)`. -/
def boost.math.gcd (x y : Int) : Int := ((Int.gcd x y : Nat) : Int)

/-- Library `QString::number (int)`: the decimal digits of the number, after a minus
sign when it is negative. -/
def QString.number (n : Int) : String :=
  if n < 0 then "-" ++ String.mk (Nat.toDigits 10 n.natAbs)
  else String.mk (Nat.toDigits 10 n.natAbs)

/-- Library `QChar::isSpace`: the ASCII white space `\t \n \v \f \r` and blank, the
controls U+0085 and U+00A0, and the Unicode separators (categories Zs, Zl,
Zp). -/
def QChar.isSpace (c : Char) : Bool :=
  let u := c.toNat
  u == 0x20 || (0x09 ≤ u && u ≤ 0x0d) || u == 0x85 || u == 0xa0 || u == 0x1680
    || (0x2000 ≤ u && u ≤ 0x200a) || u == 0x2028 || u == 0x2029 || u == 0x202f
    || u == 0x205f || u == 0x3000

/-- The scan of `QString::simplified`: `started` says that a character has been
written, `pending` that white space was skipped since the last written
character; one blank is written before a character that follows skipped white
space inside the text. -/
def QString.simplifiedGo : Bool → Bool → List Char → List Char
  | _, _, [] => []
  | started, pending, c :: cs =>
    if QChar.isSpace c then QString.simplifiedGo started true cs
    else if started && pending then ' ' :: c :: QString.simplifiedGo true false cs
    else c :: QString.simplifiedGo true false cs

/-- Library `QString::simplified`: white space removed from both ends, every inner run
of white space replaced by one blank. -/
def QString.simplified (s : String) : String :=
  String.mk (QString.simplifiedGo false false s.data)

/-- The `\d` of the pattern on the texts the drop-down holds (Latin-1): the
digits `0` to `9`. -/
def QChar.isDigit (c : Char) : Bool := '0' ≤ c && c ≤ '9'

/-- The longest run of digits at the front of a text, and what follows it. -/
def spanDigits : List Char → List Char × List Char
  | [] => ([], [])
  | c :: cs =>
    if QChar.isDigit c then ((spanDigits cs).1.cons c, (spanDigits cs).2)
    else ([], c :: cs)

/-- Library `QRegExp ("(\\d+) x (\\d+).*").exactMatch (text)` with `cap (1)` and
`cap (2)`: the text has to be a non-empty run of digits, the three characters
blank `x` blank, a non-empty run of digits, and then anything.  Both groups are
greedy: each is the longest run of digits at its place (the first is followed by
a blank, the `.*` after the second takes the rest, whatever it is).  `none` is
a failed match. -/
def QRegExp.exactMatch (text : String) : Option (String × String) :=
  match spanDigits text.data with
  | ([], _) => none
  | (c :: cs, ' ' :: 'x' :: ' ' :: rest) =>
    match spanDigits rest with
    | ([], _) => none
    | (d :: ds, _) => some (String.mk (c :: cs), String.mk (d :: ds))
  | (_ :: _, _) => none

/-- The `isspace` of libc in the C locale. -/
def isspace (c : Char) : Bool :=
  c == ' ' || c == '\t' || c == '\n' || c == '\x0b' || c == '\x0c' || c == '\r'

/-- The value of the longest run of decimal digits at the front of a text,
continuing from `acc`. -/
def atoiDigits : Int → List Char → Int
  | acc, [] => acc
  | acc, c :: cs =>
    if QChar.isDigit c then atoiDigits (acc * 10 + ((c.toNat - 48 : Nat) : Int)) cs
    else acc

/-- The sign and digits part of `atoi`. -/
def atoiSigned : List Char → Int
  | '-' :: cs => - atoiDigits 0 cs
  | '+' :: cs => atoiDigits 0 cs
  | cs => atoiDigits 0 cs

/-- White space skipped at the front of the text of `atoi`. -/
def atoiSkip : List Char → Int
  | [] => 0
  | c :: cs => if isspace c then atoiSkip cs else atoiSigned (c :: cs)

/-- The libc `atoi` on `text.toLatin1 ().data ()`: white space is skipped, an
optional sign is read, then the digits up to the first other character (a
character outside Latin-1, which `toLatin1` replaces, ends the number like any
other).  A value outside the range of `int` is undefined in C; the model gives
the mathematical value. -/
def atoi (text : String) : Int := atoiSkip text.data

/-- The scan of `QStringList::removeDuplicates`: `seen` holds the strings met
so far, a string is kept when it is met for the first time. -/
def removeDuplicatesGo : List String → List String → List String
  | _, [] => []
  | seen, s :: rest =>
    if s ∈ seen then removeDuplicatesGo seen rest
    else s :: removeDuplicatesGo (s :: seen) rest

/-- Library `QStringList::removeDuplicates`: of equal strings only the first stays, the
order of the remaining strings is kept. -/
def QStringList.removeDuplicates (l : List String) : List String :=
  removeDuplicatesGo [] l

/-- A `QMessageBox` that was shown (`exec`), by its title and text. -/
structure QMessageBox where
  windowTitle : String
  text : String
deriving DecidableEq

/-! ## The display subsystem (SDL) -/

/-- Library `SDL_DisplayMode`, of which the page reads the width and the height. -/
structure SDL_DisplayMode where
  w : Int
  h : Int
deriving DecidableEq

/-- The display queries of SDL as the page sees them: the number of displays,
the number of modes of a display, the mode of a display at an index (with the
return code of the query, negative on failure) and the text of the last
error. -/
structure SDL where
  SDL_GetNumVideoDisplays : Int
  SDL_GetNumDisplayModes : Int → Int
  SDL_GetDisplayMode : Int → Int → Int × SDL_DisplayMode
  SDL_GetError : String

/-! ## `getAspect` and `getAvailableResolutions` -/

/-- Source `getAspect (x, y)`.  The two divisions by `gcd` are undefined for
`gcd = 0`: the result is `none` then. -/
def getAspect (x y : Int) : Option String :=
  let gcd := boost.math.gcd x y
  if gcd = 0 then none
  else
    let xaspect := Int.tdiv x gcd
    let yaspect := Int.tdiv y gcd
    -- special case: 8 : 5 is usually referred to as 16:10
    if xaspect = 8 ∧ yaspect = 5 then some "16:10"
    else some (QString.number xaspect ++ ":" ++ QString.number yaspect)

namespace Launcher

/-- The body of the loop of `getAvailableResolutions` after a successful query:
the entry built for `mode` (`none`: `getAspect` divided by zero).  `tr` is the
translation of a source text. -/
def resolutionEntry (tr : String → String) (mode : SDL_DisplayMode) : Option String :=
  match getAspect mode.w mode.h with
  | none => none
  | some aspect =>
    let resolution := QString.number mode.w ++ " x " ++ QString.number mode.h
    if aspect = "16:9" ∨ aspect = "16:10" then
      some (resolution ++ (tr "\t(Wide " ++ aspect ++ ")"))
    else if aspect = "4:3" then
      some (resolution ++ tr "\t(Standard 4:3)")
    else some resolution

/-- The message box of a failed display query. -/
def resolutionError (tr : String → String) (sdl : SDL) (what : String) : QMessageBox :=
  { windowTitle := tr "Error receiving resolutions"
    text := tr what ++ sdl.SDL_GetError ++ "<br>" }

/-- The loop `for (modeIndex = 0; modeIndex < modes; modeIndex++)` of
`getAvailableResolutions` with `remaining = modes - modeIndex` iterations to
go; after the last one the duplicates are removed.  The result is the boxes
shown and the list returned. -/
def getAvailableResolutionsLoop (tr : String → String) (sdl : SDL) (screen : Int) :
    Nat → Int → List String → Option (List QMessageBox × List String)
  | 0, _, result => some ([], QStringList.removeDuplicates result)
  | remaining + 1, modeIndex, result =>
    if (sdl.SDL_GetDisplayMode screen modeIndex).1 < 0 then
      some ([resolutionError tr sdl "<br><b>SDL_GetDisplayMode failed:</b><br><br>"], result)
    else
      match resolutionEntry tr (sdl.SDL_GetDisplayMode screen modeIndex).2 with
      | none => none
      | some resolution =>
        getAvailableResolutionsLoop tr sdl screen remaining (modeIndex + 1)
          (result ++ [resolution])

/-- Source `GraphicsPage::getAvailableResolutions (screen)`: the boxes shown and the
list returned; `none` when `getAspect` divided by zero. -/
def getAvailableResolutions (tr : String → String) (sdl : SDL) (screen : Int) :
    Option (List QMessageBox × List String) :=
  let modes := sdl.SDL_GetNumDisplayModes screen
  if modes < 0 then
    some ([resolutionError tr sdl "<br><b>SDL_GetNumDisplayModes failed:</b><br><br>"], [])
  else getAvailableResolutionsLoop tr sdl screen modes.toNat 0 []

end Launcher

/-- The translation when no catalogue is installed: `tr` gives back the source
text. -/
def untranslated (s : String) : String := s


/-! ## The settings store -/

/-- A write to the settings store. -/
inductive Settings.Call where
  | setBool (setting category : String) (value : Bool)
  | setInt (setting category : String) (value : Int)
deriving DecidableEq

/-- Modelled from the spec: `Settings::Manager` (`components/settings`, not among
the sources), a store of typed values (bool, int) read and written by (setting,
category) pair.  `calls` records the writes made, in order. -/
structure Settings.Manager where
  bools : String → String → Bool
  ints : String → String → Int
  calls : List Settings.Call

/-- Modelled from the spec: `Settings::Manager::getBool (setting, category)`. -/
def Settings.Manager.getBool (s : Settings.Manager) (setting category : String) : Bool :=
  s.bools setting category

/-- Modelled from the spec: `Settings::Manager::getInt (setting, category)`. -/
def Settings.Manager.getInt (s : Settings.Manager) (setting category : String) : Int :=
  s.ints setting category

/-- Modelled from the spec: `Settings::Manager::setBool (setting, category,
value)`; the pair reads `value` afterwards, every other pair is untouched. -/
def Settings.Manager.setBool (s : Settings.Manager) (setting category : String)
    (value : Bool) : Settings.Manager :=
  { s with
    bools := fun st c => if st = setting ∧ c = category then value else s.bools st c
    calls := s.calls ++ [Settings.Call.setBool setting category value] }

/-- Modelled from the spec: `Settings::Manager::setInt (setting, category,
value)`; the pair reads `value` afterwards, every other pair is untouched. -/
def Settings.Manager.setInt (s : Settings.Manager) (setting category : String)
    (value : Int) : Settings.Manager :=
  { s with
    ints := fun st c => if st = setting ∧ c = category then value else s.ints st c
    calls := s.calls ++ [Settings.Call.setInt setting category value] }

/-! ## Widgets -/

/-- Library `Qt::CheckState`. -/
inductive Qt.CheckState where
  | Unchecked
  | PartiallyChecked
  | Checked
deriving DecidableEq

/-- The value of a `Qt::CheckState` as an `int`. -/
def Qt.CheckState.toInt : Qt.CheckState → Int
  | Qt.CheckState.Unchecked => 0
  | Qt.CheckState.PartiallyChecked => 1
  | Qt.CheckState.Checked => 2

/-- The conversion of a `Qt::CheckState` to `bool` in `bool c = box->checkState ()`. -/
def Qt.CheckState.toBool (st : Qt.CheckState) : Bool := st.toInt != 0

/-- A `QCheckBox`: its check state and whether it is enabled. -/
structure QCheckBox where
  checkState : Qt.CheckState
  enabled : Bool
deriving DecidableEq

/-- A `QRadioButton`: whether it is checked and whether it is enabled. -/
structure QRadioButton where
  checked : Bool
  enabled : Bool
deriving DecidableEq

/-- A `QSpinBox`: its range, its value and whether it is enabled. -/
structure QSpinBox where
  minimum : Int
  maximum : Int
  value : Int
  enabled : Bool
deriving DecidableEq

/-- Library `QSpinBox::setValue`: the value is brought into the range of the box
(`qBound (minimum, value, maximum)`). -/
def QSpinBox.setValue (b : QSpinBox) (value : Int) : QSpinBox :=
  { b with value := max b.minimum (min b.maximum value) }

/-- A `QComboBox` that cannot be edited: its item texts, the current index (`-1`
when no item is current) and whether it is enabled. -/
structure QComboBox where
  items : List String
  currentIndex : Int
  enabled : Bool
deriving DecidableEq

/-- Library `QComboBox::currentText`: the text of the current item, empty when there is
none. -/
def QComboBox.currentText (b : QComboBox) : String :=
  if 0 ≤ b.currentIndex then b.items.getD b.currentIndex.toNat "" else ""

/-- Library `QComboBox::clear`: no item is left and none is current. -/
def QComboBox.clear (b : QComboBox) : QComboBox :=
  { b with items := [], currentIndex := -1 }

/-- Library `QComboBox::addItems` (and `addItem` for one text): the texts are appended;
the first item becomes current when the box was empty. -/
def QComboBox.addItems (b : QComboBox) (texts : List String) : QComboBox :=
  { b with
    items := b.items ++ texts
    currentIndex := if b.items.isEmpty && !texts.isEmpty then 0 else b.currentIndex }

/-- Library `QComboBox::setCurrentIndex`: an index that names no item leaves no item
current. -/
def QComboBox.setCurrentIndex (b : QComboBox) (index : Int) : QComboBox :=
  { b with currentIndex := if 0 ≤ index ∧ index < b.items.length then index else -1 }

/-- The row of the first text that satisfies `p`, counting from `row`; `-1` when
there is none. -/
def findRow (p : String → Bool) : List String → Int → Int
  | [], _ => -1
  | s :: rest, row => if p s then row else findRow p rest (row + 1)

/-- Library `QComboBox::findText (text)` with the default flags (`Qt::MatchExactly |
Qt::MatchCaseSensitive`). -/
def QComboBox.findText (b : QComboBox) (text : String) : Int :=
  findRow (fun item => item == text) b.items 0

/-- Case folding of a character for a comparison that ignores case.  The texts
looked for are made of digits, a minus sign, blanks and `x`, and on them the
folding of the letters `A` to `Z` decides the comparison. -/
def QChar.toCaseFolded (c : Char) : Char :=
  if 'A' ≤ c ∧ c ≤ 'Z' then Char.ofNat (c.toNat + 32) else c

/-- Library `QString::startsWith (text, Qt::CaseInsensitive)` on the characters of the
item and of the text. -/
def startsWithFolded : List Char → List Char → Bool
  | _, [] => true
  | [], _ :: _ => false
  | c :: cs, t :: ts => QChar.toCaseFolded c == QChar.toCaseFolded t && startsWithFolded cs ts

/-- Library `QComboBox::findText (text, Qt::MatchStartsWith)`: the flags hold no
`Qt::MatchCaseSensitive`, the comparison ignores case. -/
def QComboBox.findTextStartsWith (b : QComboBox) (text : String) : Int :=
  findRow (fun item => startsWithFolded item.data text.data) b.items 0

namespace Launcher

/-! ## The page -/

/-- The widgets of `GraphicsPage` that the functions of the file read or write,
and the message boxes shown so far. -/
structure GraphicsPage where
  vSyncCheckBox : QCheckBox
  fullScreenCheckBox : QCheckBox
  windowBorderCheckBox : QCheckBox
  antiAliasingComboBox : QComboBox
  screenComboBox : QComboBox
  resolutionComboBox : QComboBox
  standardRadioButton : QRadioButton
  customRadioButton : QRadioButton
  customWidthSpinBox : QSpinBox
  customHeightSpinBox : QSpinBox
  messageBoxes : List QMessageBox

namespace GraphicsPage

/-- Source `GraphicsPage::slotStandardToggled (checked)`. -/
def slotStandardToggled (p : GraphicsPage) (checked : Bool) : GraphicsPage :=
  if checked then
    { p with
      resolutionComboBox := { p.resolutionComboBox with enabled := true }
      customWidthSpinBox := { p.customWidthSpinBox with enabled := false }
      customHeightSpinBox := { p.customHeightSpinBox with enabled := false } }
  else
    { p with
      resolutionComboBox := { p.resolutionComboBox with enabled := false }
      customWidthSpinBox := { p.customWidthSpinBox with enabled := true }
      customHeightSpinBox := { p.customHeightSpinBox with enabled := true } }

/-- Source `standardRadioButton->toggle ()`.  The two radio buttons exclude each other:
the checked one cannot be unchecked by a toggle; an unchecked one becomes
checked, the other one unchecked, and `toggled (true)` reaches
`slotStandardToggled` (connected in the constructor). -/
def standardRadioButton_toggle (p : GraphicsPage) : GraphicsPage :=
  if p.standardRadioButton.checked then p
  else
    slotStandardToggled
      { p with
        standardRadioButton := { p.standardRadioButton with checked := true }
        customRadioButton := { p.customRadioButton with checked := false } } true

/-- Source `customRadioButton->toggle ()`: as for the standard button; when the standard
button loses its check mark, its `toggled (false)` reaches
`slotStandardToggled`. -/
def customRadioButton_toggle (p : GraphicsPage) : GraphicsPage :=
  if p.customRadioButton.checked then p
  else if p.standardRadioButton.checked then
    slotStandardToggled
      { p with
        customRadioButton := { p.customRadioButton with checked := true }
        standardRadioButton := { p.standardRadioButton with checked := false } } false
  else { p with customRadioButton := { p.customRadioButton with checked := true } }

/-- Source `GraphicsPage::slotFullScreenChanged (state)`. -/
def slotFullScreenChanged (p : GraphicsPage) (state : Int) : GraphicsPage :=
  if state = Qt.CheckState.Checked.toInt then
    let p := standardRadioButton_toggle p
    { p with
      customRadioButton := { p.customRadioButton with enabled := false }
      customWidthSpinBox := { p.customWidthSpinBox with enabled := false }
      customHeightSpinBox := { p.customHeightSpinBox with enabled := false }
      windowBorderCheckBox := { p.windowBorderCheckBox with enabled := false } }
  else
    { p with
      customRadioButton := { p.customRadioButton with enabled := true }
      customWidthSpinBox := { p.customWidthSpinBox with enabled := true }
      customHeightSpinBox := { p.customHeightSpinBox with enabled := true }
      windowBorderCheckBox := { p.windowBorderCheckBox with enabled := true } }

/-- Source `fullScreenCheckBox->setCheckState (state)`: a change of the state emits
`stateChanged (state)`, connected to `slotFullScreenChanged`. -/
def fullScreenCheckBox_setCheckState (p : GraphicsPage) (state : Qt.CheckState) :
    GraphicsPage :=
  if p.fullScreenCheckBox.checkState = state then p
  else
    slotFullScreenChanged
      { p with fullScreenCheckBox := { p.fullScreenCheckBox with checkState := state } }
      state.toInt

/-- Source `GraphicsPage::saveSettings ()`: the store after the call. -/
def saveSettings (mEngineSettings : Settings.Manager) (p : GraphicsPage) : Settings.Manager :=
  let iVSync := mEngineSettings.getBool "vsync" "Video"
  let cVSync := p.vSyncCheckBox.checkState.toBool
  let mEngineSettings :=
    if iVSync ≠ cVSync then mEngineSettings.setBool "vsync" "Video" cVSync else mEngineSettings
  let iFullScreen := mEngineSettings.getBool "fullscreen" "Video"
  let cFullScreen := p.fullScreenCheckBox.checkState.toBool
  let mEngineSettings :=
    if iFullScreen ≠ cFullScreen then mEngineSettings.setBool "fullscreen" "Video" cFullScreen
    else mEngineSettings
  let iWindowBorder := mEngineSettings.getBool "window border" "Video"
  let cWindowBorder := p.windowBorderCheckBox.checkState.toBool
  let mEngineSettings :=
    if iWindowBorder ≠ cWindowBorder then
      mEngineSettings.setBool "window border" "Video" cWindowBorder
    else mEngineSettings
  let iAAValue := mEngineSettings.getInt "antialiasing" "Video"
  let cAAValue := atoi p.antiAliasingComboBox.currentText
  let mEngineSettings :=
    if iAAValue ≠ cAAValue then mEngineSettings.setInt "antialiasing" "Video" cAAValue
    else mEngineSettings
  let cSize : Int × Int :=
    if p.standardRadioButton.checked then
      match QRegExp.exactMatch (QString.simplified p.resolutionComboBox.currentText) with
      | some (cap1, cap2) => (atoi cap1, atoi cap2)
      | none => (0, 0)
    else (p.customWidthSpinBox.value, p.customHeightSpinBox.value)
  let cWidth := cSize.1
  let cHeight := cSize.2
  let iWidth := mEngineSettings.getInt "resolution x" "Video"
  let mEngineSettings :=
    if iWidth ≠ cWidth then mEngineSettings.setInt "resolution x" "Video" cWidth
    else mEngineSettings
  let iHeight := mEngineSettings.getInt "resolution y" "Video"
  let mEngineSettings :=
    if iHeight ≠ cHeight then mEngineSettings.setInt "resolution y" "Video" cHeight
    else mEngineSettings
  let iScreen := mEngineSettings.getInt "screen" "Video"
  let cScreen := p.screenComboBox.currentIndex
  if iScreen ≠ cScreen then mEngineSettings.setInt "screen" "Video" cScreen
  else mEngineSettings

/-- Source `GraphicsPage::screenChanged (screen)`; `none` when `getAspect` divided by
zero during the enumeration. -/
def screenChanged (tr : String → String) (sdl : SDL) (p : GraphicsPage) (screen : Int) :
    Option GraphicsPage :=
  if screen ≥ 0 then
    match getAvailableResolutions tr sdl screen with
    | none => none
    | some (boxes, resolutions) =>
      some { p with
        resolutionComboBox := (p.resolutionComboBox.clear).addItems resolutions
        messageBoxes := p.messageBoxes ++ boxes }
  else some p

/-- A change of the screen drop-down from the box `old` to the box now in the
page: when the current index has changed, `currentIndexChanged (index)` reaches
`screenChanged` (connected in the constructor). -/
def screenComboBox_changed (tr : String → String) (sdl : SDL) (old : QComboBox)
    (p : GraphicsPage) : Option GraphicsPage :=
  if p.screenComboBox.currentIndex ≠ old.currentIndex then
    screenChanged tr sdl p p.screenComboBox.currentIndex
  else some p

/-- Source `screenComboBox->clear ()`. -/
def screenComboBox_clear (tr : String → String) (sdl : SDL) (p : GraphicsPage) :
    Option GraphicsPage :=
  screenComboBox_changed tr sdl p.screenComboBox
    { p with screenComboBox := p.screenComboBox.clear }

/-- Source `screenComboBox->addItem (text)`. -/
def screenComboBox_addItem (tr : String → String) (sdl : SDL) (p : GraphicsPage)
    (text : String) : Option GraphicsPage :=
  screenComboBox_changed tr sdl p.screenComboBox
    { p with screenComboBox := p.screenComboBox.addItems [text] }

/-- Source `screenComboBox->setCurrentIndex (index)`. -/
def screenComboBox_setCurrentIndex (tr : String → String) (sdl : SDL) (p : GraphicsPage)
    (index : Int) : Option GraphicsPage :=
  screenComboBox_changed tr sdl p.screenComboBox
    { p with screenComboBox := p.screenComboBox.setCurrentIndex index }

/-- The loop `for (int i = 0; i < displays; i++)` of `setupSDL` with
`remaining = displays - i` iterations to go. -/
def setupSDLLoop (tr : String → String) (sdl : SDL) :
    Nat → Int → GraphicsPage → Option GraphicsPage
  | 0, _, p => some p
  | remaining + 1, i, p =>
    match screenComboBox_addItem tr sdl p (tr "Screen " ++ QString.number (i + 1)) with
    | none => none
    | some p => setupSDLLoop tr sdl remaining (i + 1) p

/-- Source `GraphicsPage::setupSDL ()`: the value returned and the page; `none` when
`getAspect` divided by zero. -/
def setupSDL (tr : String → String) (sdl : SDL) (p : GraphicsPage) :
    Option (Bool × GraphicsPage) :=
  let displays := sdl.SDL_GetNumVideoDisplays
  if displays < 0 then
    some (false, { p with
      messageBoxes := p.messageBoxes ++
        [{ windowTitle := tr "Error receiving number of screens"
           text := tr "<br><b>SDL_GetNumDisplayModes failed:</b><br><br>" ++ sdl.SDL_GetError
             ++ "<br>" }] })
  else
    match screenComboBox_clear tr sdl p with
    | none => none
    | some p =>
      match setupSDLLoop tr sdl displays.toNat 0 p with
      | none => none
      | some p => some (true, p)

/-- Source `GraphicsPage::loadSettings ()`: the value returned and the page; `none`
when `getAspect` divided by zero. -/
def loadSettings (tr : String → String) (sdl : SDL) (mEngineSettings : Settings.Manager)
    (p : GraphicsPage) : Option (Bool × GraphicsPage) :=
  match setupSDL tr sdl p with
  | none => none
  | some (false, p) => some (false, p)
  | some (true, p) =>
    let p :=
      if mEngineSettings.getBool "vsync" "Video" then
        { p with vSyncCheckBox := { p.vSyncCheckBox with checkState := Qt.CheckState.Checked } }
      else p
    let p :=
      if mEngineSettings.getBool "fullscreen" "Video" then
        fullScreenCheckBox_setCheckState p Qt.CheckState.Checked
      else p
    let p :=
      if mEngineSettings.getBool "window border" "Video" then
        { p with
          windowBorderCheckBox :=
            { p.windowBorderCheckBox with checkState := Qt.CheckState.Checked } }
      else p
    -- aaValue is the actual value (0, 1, 2, 4, 8, 16)
    let aaValue := mEngineSettings.getInt "antialiasing" "Video"
    -- aaIndex is the index into the allowed values in the pull down.
    let aaIndex := p.antiAliasingComboBox.findText (QString.number aaValue)
    let p :=
      if aaIndex ≠ -1 then
        { p with antiAliasingComboBox := p.antiAliasingComboBox.setCurrentIndex aaIndex }
      else p
    let width := mEngineSettings.getInt "resolution x" "Video"
    let height := mEngineSettings.getInt "resolution y" "Video"
    let resolution := QString.number width ++ " x " ++ QString.number height
    match screenComboBox_setCurrentIndex tr sdl p (mEngineSettings.getInt "screen" "Video") with
    | none => none
    | some p =>
      let resIndex := p.resolutionComboBox.findTextStartsWith resolution
      if resIndex ≠ -1 then
        let p := standardRadioButton_toggle p
        some (true,
          { p with resolutionComboBox := p.resolutionComboBox.setCurrentIndex resIndex })
      else
        let p := customRadioButton_toggle p
        some (true,
          { p with
            customWidthSpinBox := p.customWidthSpinBox.setValue width
            customHeightSpinBox := p.customHeightSpinBox.setValue height })

/-- A call of one of the two slots by its signal. -/
inductive SlotCall where
  | fullScreenChanged (state : Qt.CheckState)
  | standardToggled (checked : Bool)
deriving DecidableEq

/-- The page after a signal has called its slot.  `stateChanged (state)` comes
from the full-screen check box, which is in `state` then; `toggled (checked)` comes
from the standard radio button, which is checked or not as the signal says (and
the custom button the other way round, as the two exclude each other). -/
def callSlot (p : GraphicsPage) : SlotCall → GraphicsPage
  | SlotCall.fullScreenChanged state =>
    slotFullScreenChanged
      { p with fullScreenCheckBox := { p.fullScreenCheckBox with checkState := state } }
      state.toInt
  | SlotCall.standardToggled checked =>
    slotStandardToggled
      { p with
        standardRadioButton := { p.standardRadioButton with checked := checked }
        customRadioButton := { p.customRadioButton with checked := !checked } } checked

/-- The page after a sequence of slot calls. -/
def callSlots (p : GraphicsPage) (calls : List SlotCall) : GraphicsPage :=
  calls.foldl callSlot p

end GraphicsPage
end Launcher
open Launcher Launcher.GraphicsPage

/-! ## Definitions used in the statements -/

/-- The value `atoi` gives to a run of digits, from the left. -/
def digitsValue (ds : List Char) : Int :=
  ds.foldl (fun acc c => acc * 10 + ((c.toNat - 48 : Nat) : Int)) 0

/-- The entry of the mode at an index, as a text (empty where no entry is
built); used to name the entries in the statements about the loop. -/
def entryAt (tr : String → String) (sdl : SDL) (screen : Int) (i : Int) : String :=
  (Launcher.resolutionEntry tr (sdl.SDL_GetDisplayMode screen i).2).getD ""

/-- The query at index `i` succeeds and an entry is built for its mode. -/
def queryOk (tr : String → String) (sdl : SDL) (screen : Int) (i : Int) : Prop :=
  0 ≤ (sdl.SDL_GetDisplayMode screen i).1 ∧
    Launcher.resolutionEntry tr (sdl.SDL_GetDisplayMode screen i).2 =
      some (entryAt tr sdl screen i)

/-- The values of the seven Video settings. -/
structure VideoValues where
  vsync : Bool
  fullscreen : Bool
  windowBorder : Bool
  antialiasing : Int
  resolutionX : Int
  resolutionY : Int
  screen : Int
deriving DecidableEq

/-- The values the store holds for the seven Video settings. -/
def storedValues (s : Settings.Manager) : VideoValues :=
  { vsync := s.getBool "vsync" "Video"
    fullscreen := s.getBool "fullscreen" "Video"
    windowBorder := s.getBool "window border" "Video"
    antialiasing := s.getInt "antialiasing" "Video"
    resolutionX := s.getInt "resolution x" "Video"
    resolutionY := s.getInt "resolution y" "Video"
    screen := s.getInt "screen" "Video" }

/-- The width and height `saveSettings` reads from the page. -/
def uiResolution (p : GraphicsPage) : Int × Int :=
  if p.standardRadioButton.checked then
    match QRegExp.exactMatch (QString.simplified p.resolutionComboBox.currentText) with
    | some (cap1, cap2) => (atoi cap1, atoi cap2)
    | none => (0, 0)
  else (p.customWidthSpinBox.value, p.customHeightSpinBox.value)

/-- The values `saveSettings` reads from the widgets of the page. -/
def uiValues (p : GraphicsPage) : VideoValues :=
  { vsync := p.vSyncCheckBox.checkState.toBool
    fullscreen := p.fullScreenCheckBox.checkState.toBool
    windowBorder := p.windowBorderCheckBox.checkState.toBool
    antialiasing := atoi p.antiAliasingComboBox.currentText
    resolutionX := (uiResolution p).1
    resolutionY := (uiResolution p).2
    screen := p.screenComboBox.currentIndex }

/-- The writes `saveSettings` has to make to bring the stored values `i` to the
values `c` of the page: one per setting that differs, in the order of the
function. -/
def expectedCalls (i c : VideoValues) : List Settings.Call :=
  (if i.vsync ≠ c.vsync then [Settings.Call.setBool "vsync" "Video" c.vsync] else []) ++
  (if i.fullscreen ≠ c.fullscreen then [Settings.Call.setBool "fullscreen" "Video" c.fullscreen]
    else []) ++
  (if i.windowBorder ≠ c.windowBorder then
    [Settings.Call.setBool "window border" "Video" c.windowBorder] else []) ++
  (if i.antialiasing ≠ c.antialiasing then
    [Settings.Call.setInt "antialiasing" "Video" c.antialiasing] else []) ++
  (if i.resolutionX ≠ c.resolutionX then
    [Settings.Call.setInt "resolution x" "Video" c.resolutionX] else []) ++
  (if i.resolutionY ≠ c.resolutionY then
    [Settings.Call.setInt "resolution y" "Video" c.resolutionY] else []) ++
  (if i.screen ≠ c.screen then [Settings.Call.setInt "screen" "Video" c.screen] else [])

/-- One step of `saveSettings` for a bool setting: the value is written when
it differs from the stored one. -/
def syncBool (s : Settings.Manager) (setting : String) (c : Bool) : Settings.Manager :=
  if s.getBool setting "Video" ≠ c then s.setBool setting "Video" c else s

/-- One step of `saveSettings` for an int setting. -/
def syncInt (s : Settings.Manager) (setting : String) (c : Int) : Settings.Manager :=
  if s.getInt setting "Video" ≠ c then s.setInt setting "Video" c else s

/-- The width and height read by `saveSettings` in standard mode from a text of
the drop-down: `none` when the pattern does not match. -/
def parseResolution (text : String) : Option (Int × Int) :=
  (QRegExp.exactMatch (QString.simplified text)).map (fun cap => (atoi cap.1, atoi cap.2))

/-- The first character of a text, if any, is no digit. -/
def noDigitAhead (l : List Char) : Prop := ∀ c, l.head? = some c → QChar.isDigit c = false

/-- The two radio buttons are not both checked. -/
def exclusive (p : GraphicsPage) : Prop :=
  ¬ (p.standardRadioButton.checked = true ∧ p.customRadioButton.checked = true)

/-- Lines 83 to 97 of `loadSettings`: the check boxes and the antialiasing
drop-down are set from the store. -/
def loadSettingsWidgets (mEngineSettings : Settings.Manager) (p : GraphicsPage) : GraphicsPage :=
  let p :=
    if mEngineSettings.getBool "vsync" "Video" then
      { p with vSyncCheckBox := { p.vSyncCheckBox with checkState := Qt.CheckState.Checked } }
    else p
  let p :=
    if mEngineSettings.getBool "fullscreen" "Video" then
      fullScreenCheckBox_setCheckState p Qt.CheckState.Checked
    else p
  let p :=
    if mEngineSettings.getBool "window border" "Video" then
      { p with
        windowBorderCheckBox :=
          { p.windowBorderCheckBox with checkState := Qt.CheckState.Checked } }
    else p
  let aaValue := mEngineSettings.getInt "antialiasing" "Video"
  let aaIndex := p.antiAliasingComboBox.findText (QString.number aaValue)
  if aaIndex ≠ -1 then
    { p with antiAliasingComboBox := p.antiAliasingComboBox.setCurrentIndex aaIndex }
  else p

/-- Lines 104 to 113 of `loadSettings`: the resolution mode is chosen from the
drop-down and the stored width and height. -/
def loadSettingsResolution (p : GraphicsPage) (width height : Int) : GraphicsPage :=
  let resolution := QString.number width ++ " x " ++ QString.number height
  let resIndex := p.resolutionComboBox.findTextStartsWith resolution
  if resIndex ≠ -1 then
    let p := standardRadioButton_toggle p
    { p with resolutionComboBox := p.resolutionComboBox.setCurrentIndex resIndex }
  else
    let p := customRadioButton_toggle p
    { p with
      customWidthSpinBox := p.customWidthSpinBox.setValue width
      customHeightSpinBox := p.customHeightSpinBox.setValue height }

/-- The page `q` has the radio buttons of `p`. -/
def sameRadios (p q : GraphicsPage) : Prop :=
  q.standardRadioButton = p.standardRadioButton ∧ q.customRadioButton = p.customRadioButton

/-- No mode reported for any display is 0 x 0. -/
def noEmptyMode (sdl : SDL) : Prop :=
  ∀ screen i : Int, ¬ ((sdl.SDL_GetDisplayMode screen i).2.w = 0 ∧
    (sdl.SDL_GetDisplayMode screen i).2.h = 0)

/-- A display that reports three modes: 1920 x 1080, 640 x 480 and 1920 x 1080
again. -/
def sdlThreeModes : SDL where
  SDL_GetNumVideoDisplays := 1
  SDL_GetNumDisplayModes := fun _ => 3
  SDL_GetDisplayMode := fun _ i =>
    if i = 0 then (0, { w := 1920, h := 1080 })
    else if i = 1 then (0, { w := 640, h := 480 })
    else (0, { w := 1920, h := 1080 })
  SDL_GetError := ""

/-- A display with two modes, of which the first is 640 x 480 and the query of
the second fails. -/
def sdlSecondQueryFails : SDL where
  SDL_GetNumVideoDisplays := 1
  SDL_GetNumDisplayModes := fun _ => 2
  SDL_GetDisplayMode := fun _ i =>
    if i = 0 then (0, { w := 640, h := 480 }) else (-1, { w := 0, h := 0 })
  SDL_GetError := "no such mode"

/-- A display subsystem with one display that reports the single mode
640 x 480. -/
def sdlVGA : SDL where
  SDL_GetNumVideoDisplays := 1
  SDL_GetNumDisplayModes := fun _ => 1
  SDL_GetDisplayMode := fun _ _ => (0, { w := 640, h := 480 })
  SDL_GetError := ""

/-- A store that holds the given width and height, screen 0, and nothing set
otherwise. -/
def storeWithResolution (width height : Int) : Settings.Manager where
  bools := fun _ _ => false
  ints := fun setting _ =>
    if setting = "resolution x" then width else if setting = "resolution y" then height else 0
  calls := []

/-- A page as the constructor leaves it on a 1920 x 1080 desktop: nothing
checked, the drop-downs for screen and resolution empty, the custom spin boxes
limited to the desktop size. -/
def freshPage : GraphicsPage where
  vSyncCheckBox := { checkState := Qt.CheckState.Unchecked, enabled := true }
  fullScreenCheckBox := { checkState := Qt.CheckState.Unchecked, enabled := true }
  windowBorderCheckBox := { checkState := Qt.CheckState.Unchecked, enabled := true }
  antiAliasingComboBox := { items := ["0", "2", "4", "8", "16"], currentIndex := 0, enabled := true }
  screenComboBox := { items := [], currentIndex := -1, enabled := true }
  resolutionComboBox := { items := [], currentIndex := -1, enabled := true }
  standardRadioButton := { checked := false, enabled := true }
  customRadioButton := { checked := false, enabled := true }
  customWidthSpinBox := { minimum := 0, maximum := 1920, value := 0, enabled := true }
  customHeightSpinBox := { minimum := 0, maximum := 1080, value := 0, enabled := true }
  messageBoxes := []

/-- The fresh page once the screen drop-down shows the one screen. -/
def settledPage : GraphicsPage :=
  { freshPage with screenComboBox := { items := ["Screen 1"], currentIndex := 0, enabled := true } }

/-- The fresh page with the standard mode selected and nothing in the resolution
drop-down. -/
def emptyStandardPage : GraphicsPage :=
  { freshPage with standardRadioButton := { checked := true, enabled := true } }

/-- What the statements about `loadSettings` look at in its result: the value
returned, whether the standard and the custom button are checked, the items and
the current text of the resolution drop-down, the values of the custom spin
boxes. -/
structure ResolutionView where
  returned : Bool
  standardChecked : Bool
  customChecked : Bool
  items : List String
  currentText : String
  customWidth : Int
  customHeight : Int
deriving DecidableEq

/-- The view of a result of `loadSettings`. -/
def resolutionView (r : Bool × GraphicsPage) : ResolutionView :=
  { returned := r.1
    standardChecked := r.2.standardRadioButton.checked
    customChecked := r.2.customRadioButton.checked
    items := r.2.resolutionComboBox.items
    currentText := r.2.resolutionComboBox.currentText
    customWidth := r.2.customWidthSpinBox.value
    customHeight := r.2.customHeightSpinBox.value }

/-! ## Theorems -/

theorem toDigitsCore_fuel : ∀ (n fuel : Nat) (acc : List Char), n < fuel →
    Nat.toDigitsCore 10 fuel n acc = Nat.toDigits 10 n ++ acc := by
  intro n
  induction n using Nat.strong_induction_on with
  | _ n ih =>
    intro fuel acc hlt
    obtain ⟨f, rfl⟩ : ∃ f, fuel = f + 1 := ⟨fuel - 1, by omega⟩
    unfold Nat.toDigits
    rw [Nat.toDigitsCore, Nat.toDigitsCore]
    by_cases h0 : n / 10 = 0
    · simp [h0]
    · have hlt' : n / 10 < n := by omega
      simp only [h0, if_false]
      rw [ih (n / 10) hlt' f _ (by omega), ih (n / 10) hlt' n _ hlt']
      simp

theorem toDigits_small (n : Nat) (h : n < 10) : Nat.toDigits 10 n = [Nat.digitChar n] := by
  unfold Nat.toDigits
  rw [Nat.toDigitsCore]
  have : n / 10 = 0 := by omega
  simp [this, Nat.mod_eq_of_lt h]

theorem toDigits_step (n : Nat) (h : 10 ≤ n) :
    Nat.toDigits 10 n = Nat.toDigits 10 (n / 10) ++ [Nat.digitChar (n % 10)] := by
  have h0 : n / 10 ≠ 0 := by omega
  conv_lhs => unfold Nat.toDigits
  rw [Nat.toDigitsCore]
  simp only [h0, if_false]
  exact toDigitsCore_fuel (n / 10) n _ (by omega)

theorem toDigits_eq_digits (n : Nat) (h : 0 < n) :
    Nat.toDigits 10 n = ((Nat.digits 10 n).reverse.map Nat.digitChar) := by
  induction n using Nat.strong_induction_on with
  | _ n ih =>
    by_cases hs : n < 10
    · rw [toDigits_small n hs, Nat.digits_of_lt 10 n (by omega) hs]; rfl
    · rw [toDigits_step n (by omega), ih (n / 10) (by omega) (by omega)]
      conv_rhs => rw [Nat.digits_def' (by decide) h]
      simp

/-- A decimal digit character: it is a digit for `\d` and `atoi`, no white
space, and its value is the digit. -/
theorem digitChar_facts (m : Nat) (h : m < 10) :
    QChar.isDigit (Nat.digitChar m) = true ∧ QChar.isSpace (Nat.digitChar m) = false ∧
      ((Nat.digitChar m).toNat - 48 = m) ∧ Nat.digitChar m ≠ ':' := by
  interval_cases m <;> decide

theorem toDigits_ne_nil (n : Nat) : Nat.toDigits 10 n ≠ [] := by
  by_cases hs : n < 10
  · rw [toDigits_small n hs]; simp
  · rw [toDigits_step n (by omega)]; simp

theorem toDigits_all (n : Nat) :
    ∀ c ∈ Nat.toDigits 10 n, QChar.isDigit c = true ∧ QChar.isSpace c = false ∧ c ≠ ':' := by
  induction n using Nat.strong_induction_on with
  | _ n ih =>
    by_cases hs : n < 10
    · rw [toDigits_small n hs]
      intro c hc
      rw [List.mem_singleton] at hc
      subst hc
      exact ⟨(digitChar_facts n hs).1, (digitChar_facts n hs).2.1, (digitChar_facts n hs).2.2.2⟩
    · rw [toDigits_step n (by omega)]
      intro c hc
      rcases List.mem_append.mp hc with h | h
      · exact ih (n / 10) (by omega) c h
      · rw [List.mem_singleton] at h
        subst h
        have hm : n % 10 < 10 := Nat.mod_lt _ (by decide)
        exact ⟨(digitChar_facts _ hm).1, (digitChar_facts _ hm).2.1, (digitChar_facts _ hm).2.2.2⟩

theorem digitsValue_toDigits (n : Nat) : digitsValue (Nat.toDigits 10 n) = (n : Int) := by
  induction n using Nat.strong_induction_on with
  | _ n ih =>
    by_cases hs : n < 10
    · rw [toDigits_small n hs]
      simp [digitsValue, (digitChar_facts n hs).2.2.1]
    · rw [toDigits_step n (by omega)]
      have hm : n % 10 < 10 := Nat.mod_lt _ (by decide)
      have := ih (n / 10) (by omega)
      unfold digitsValue at this ⊢
      rw [List.foldl_append, this]
      simp only [List.foldl_cons, List.foldl_nil, (digitChar_facts _ hm).2.2.1]
      omega

theorem number_nonneg (n : Int) (h : 0 ≤ n) :
    QString.number n = String.mk (Nat.toDigits 10 n.toNat) := by
  unfold QString.number
  rw [if_neg (by omega)]
  congr 2
  omega

/-- Claim C9: the divisor `gcd (x, y)` of the two divisions in `getAspect` is zero
exactly for `x = 0` and `y = 0`, and `getAspect` divides by zero (result `none`)
exactly then; for every other pair the divisor is at least 1 and divides `x` and
`y` without remainder. -/
theorem getAspect_divisor_zero_iff (x y : Int) :
    (boost.math.gcd x y = 0 ↔ x = 0 ∧ y = 0) ∧
    (getAspect x y = none ↔ x = 0 ∧ y = 0) ∧
    (boost.math.gcd x y = 0 ∨
      (1 ≤ boost.math.gcd x y ∧ Int.tdiv x (boost.math.gcd x y) * boost.math.gcd x y = x ∧
        Int.tdiv y (boost.math.gcd x y) * boost.math.gcd x y = y)) := by
  have hz : boost.math.gcd x y = 0 ↔ x = 0 ∧ y = 0 := by
    unfold boost.math.gcd
    rw [Int.natCast_eq_zero]
    exact Int.gcd_eq_zero_iff
  refine ⟨hz, ?_, ?_⟩
  · rw [← hz]
    unfold getAspect
    constructor
    · intro h
      by_contra hne
      simp only [hne, if_false] at h
      split at h <;> exact Option.noConfusion h
    · intro h
      simp [h]
  · by_cases h0 : boost.math.gcd x y = 0
    · exact Or.inl h0
    · right
      have hpos : 0 ≤ boost.math.gcd x y := by unfold boost.math.gcd; exact Int.natCast_nonneg _
      refine ⟨by omega, ?_, ?_⟩
      · exact Int.tdiv_mul_cancel (by unfold boost.math.gcd; exact Int.gcd_dvd_left)
      · exact Int.tdiv_mul_cancel (by unfold boost.math.gcd; exact Int.gcd_dvd_right)

theorem getAspect_pos_spec (x y : Int) (hx : 0 < x) (hy : 0 < y) :
    ∃ a b : Nat, (a : Int) = x / (Int.gcd x y : Int) ∧ (b : Int) = y / (Int.gcd x y : Int) ∧
      Nat.gcd a b = 1 ∧ (a : Int) * y = (b : Int) * x ∧
      (QString.number a).data = (Nat.digits 10 a).reverse.map Nat.digitChar ∧
      (QString.number b).data = (Nat.digits 10 b).reverse.map Nat.digitChar ∧
      getAspect x y = some (if a = 8 ∧ b = 5 then "16:10"
        else QString.number a ++ ":" ++ QString.number b) := by
  have hg : 0 < (Int.gcd x y : Int) := by
    have := Int.gcd_pos_of_ne_zero_left y (ne_of_gt hx)
    exact_mod_cast this
  have hdx : (Int.gcd x y : Int) ∣ x := Int.gcd_dvd_left
  have hdy : (Int.gcd x y : Int) ∣ y := Int.gcd_dvd_right
  have hxa : 0 < x / (Int.gcd x y : Int) := Int.ediv_pos_of_pos_of_dvd hx (le_of_lt hg) hdx
  have hyb : 0 < y / (Int.gcd x y : Int) := Int.ediv_pos_of_pos_of_dvd hy (le_of_lt hg) hdy
  refine ⟨(x / (Int.gcd x y : Int)).toNat, (y / (Int.gcd x y : Int)).toNat, ?_, ?_, ?_, ?_, ?_, ?_, ?_⟩
  · rw [Int.toNat_of_nonneg (le_of_lt hxa)]
  · rw [Int.toNat_of_nonneg (le_of_lt hyb)]
  · have h1 := Int.gcd_div_gcd_div_gcd (i := x) (j := y) (by exact_mod_cast hg)
    rw [Int.gcd_eq_natAbs] at h1
    rw [← h1]
    congr 1 <;> omega
  · rw [Int.toNat_of_nonneg (le_of_lt hxa), Int.toNat_of_nonneg (le_of_lt hyb)]
    have ex := Int.ediv_mul_cancel hdx
    have ey := Int.ediv_mul_cancel hdy
    linear_combination (-(x / (Int.gcd x y : Int))) * ey + (y / (Int.gcd x y : Int)) * ex
  · rw [number_nonneg _ (Int.natCast_nonneg _)]
    simp only [Int.toNat_ofNat]
    exact toDigits_eq_digits _ (by omega)
  · rw [number_nonneg _ (Int.natCast_nonneg _)]
    simp only [Int.toNat_ofNat]
    exact toDigits_eq_digits _ (by omega)
  · unfold getAspect boost.math.gcd
    simp only [ne_of_gt hg, if_false]
    rw [Int.tdiv_eq_ediv (le_of_lt hx) (le_of_lt hg), Int.tdiv_eq_ediv (le_of_lt hy) (le_of_lt hg)]
    rw [Int.toNat_of_nonneg (le_of_lt hxa), Int.toNat_of_nonneg (le_of_lt hyb)]
    have c1 : (x / (Int.gcd x y : Int) = 8) ↔ ((x / (Int.gcd x y : Int)).toNat = 8) := by omega
    have c2 : (y / (Int.gcd x y : Int) = 5) ↔ ((y / (Int.gcd x y : Int)).toNat = 5) := by omega
    by_cases hc : x / (Int.gcd x y : Int) = 8 ∧ y / (Int.gcd x y : Int) = 5
    · rw [if_pos hc, if_pos ⟨c1.mp hc.1, c2.mp hc.2⟩]
    · rw [if_neg hc, if_neg (fun h => hc ⟨c1.mpr h.1, c2.mpr h.2⟩)]

/-- Claim C1: for `x > 0` and `y > 0`, `getAspect (x, y)` returns the text
`a:b` with `a = x / gcd (x, y)` and `b = y / gcd (x, y)` (so `gcd (a, b) = 1` and
`a * y = b * x`), both written with their decimal digits, except that it
returns `16:10` when `a = 8` and `b = 5`. -/
theorem getAspect_reduced_fraction (x y : Int) (hx : 0 < x) (hy : 0 < y) :
    ∃ a b : Nat, (a : Int) = x / (Int.gcd x y : Int) ∧ (b : Int) = y / (Int.gcd x y : Int) ∧
      Nat.gcd a b = 1 ∧ (a : Int) * y = (b : Int) * x ∧
      (QString.number a).data = (Nat.digits 10 a).reverse.map Nat.digitChar ∧
      (QString.number b).data = (Nat.digits 10 b).reverse.map Nat.digitChar ∧
      getAspect x y = some (if a = 8 ∧ b = 5 then "16:10"
        else QString.number a ++ ":" ++ QString.number b) :=
  getAspect_pos_spec x y hx hy

/-- Witness for C1 at 1920 x 1080. -/
theorem getAspect_reduced_fraction_witness :
    (0 : Int) < 1920 ∧ (0 : Int) < 1080 ∧ getAspect 1920 1080 = some "16:9" ∧
    ∃ a b : Nat, (a : Int) = 1920 / (Int.gcd 1920 1080 : Int) ∧ (b : Int) = 1080 / (Int.gcd 1920 1080 : Int) ∧
      Nat.gcd a b = 1 ∧ (a : Int) * 1080 = (b : Int) * 1920 ∧
      (QString.number a).data = (Nat.digits 10 a).reverse.map Nat.digitChar ∧
      (QString.number b).data = (Nat.digits 10 b).reverse.map Nat.digitChar ∧
      getAspect 1920 1080 = some (if a = 8 ∧ b = 5 then "16:10"
        else QString.number a ++ ":" ++ QString.number b) :=
  ⟨by decide, by decide, by decide, getAspect_reduced_fraction 1920 1080 (by decide) (by decide)⟩

theorem append_cons_split {α : Type} (x : α) :
    ∀ (l₁ l₂ r₁ r₂ : List α), x ∉ l₁ → x ∉ l₂ → l₁ ++ x :: r₁ = l₂ ++ x :: r₂ →
      l₁ = l₂ ∧ r₁ = r₂
  | [], [], _, _, _, _, h => ⟨rfl, (List.cons.inj h).2⟩
  | [], b :: l₂, _, _, _, h₂, h => by
    have := (List.cons.inj h).1
    exact absurd (this ▸ List.mem_cons_self _ _) h₂
  | a :: l₁, [], _, _, h₁, _, h => by
    have := (List.cons.inj h).1
    exact absurd (this ▸ List.mem_cons_self _ _) h₁
  | a :: l₁, b :: l₂, r₁, r₂, h₁, h₂, h => by
    have hh := List.cons.inj h
    have ih := append_cons_split x l₁ l₂ r₁ r₂
      (fun hm => h₁ (List.mem_cons_of_mem _ hm)) (fun hm => h₂ (List.mem_cons_of_mem _ hm)) hh.2
    exact ⟨by rw [hh.1, ih.1], ih.2⟩

theorem toDigits_inj (a b : Nat) (h : Nat.toDigits 10 a = Nat.toDigits 10 b) : a = b := by
  have := congrArg digitsValue h
  rw [digitsValue_toDigits, digitsValue_toDigits] at this
  exact_mod_cast this

theorem number_nat (n : Nat) : QString.number (n : Int) = String.mk (Nat.toDigits 10 n) := by
  rw [number_nonneg _ (Int.natCast_nonneg _)]
  simp

/-- Two ratio texts are equal only when their numbers are. -/
theorem ratio_text_inj (a b c d : Nat)
    (h : QString.number a ++ ":" ++ QString.number b = QString.number c ++ ":" ++ QString.number d) :
    a = c ∧ b = d := by
  have hd := congrArg String.data h
  simp only [number_nat, String.data_append, List.append_assoc] at hd
  have hs := append_cons_split ':' (Nat.toDigits 10 a) (Nat.toDigits 10 c)
    (Nat.toDigits 10 b) (Nat.toDigits 10 d)
    (fun hm => (toDigits_all a _ hm).2.2 rfl) (fun hm => (toDigits_all c _ hm).2.2 rfl) hd
  exact ⟨toDigits_inj _ _ hs.1, toDigits_inj _ _ hs.2⟩

theorem resolutionEntry_pos_spec (w h : Int) (hw : 0 < w) (hh : 0 < h) :
    Launcher.resolutionEntry untranslated ⟨w, h⟩ =
      some (QString.number w ++ " x " ++ QString.number h ++
        (if w / (Int.gcd w h : Int) = 16 ∧ h / (Int.gcd w h : Int) = 9 then "\t(Wide 16:9)"
         else if w / (Int.gcd w h : Int) = 8 ∧ h / (Int.gcd w h : Int) = 5 then "\t(Wide 16:10)"
         else if w / (Int.gcd w h : Int) = 4 ∧ h / (Int.gcd w h : Int) = 3 then "\t(Standard 4:3)"
         else "")) := by
  obtain ⟨a, b, ha, hb, hab, -, -, -, hasp⟩ := getAspect_pos_spec w h hw hh
  unfold Launcher.resolutionEntry
  simp only [hasp]
  rw [← ha, ← hb]
  by_cases h85 : a = 8 ∧ b = 5
  · obtain ⟨rfl, rfl⟩ := h85
    simp [untranslated]
  · simp only [h85, if_false]
    by_cases h169 : a = 16 ∧ b = 9
    · obtain ⟨rfl, rfl⟩ := h169
      have e : QString.number (16 : Int) ++ ":" ++ QString.number (9 : Int) = "16:9" := by
        decide
      simp [e, untranslated]
    · by_cases h43 : a = 4 ∧ b = 3
      · obtain ⟨rfl, rfl⟩ := h43
        have e : QString.number (4 : Int) ++ ":" ++ QString.number (3 : Int) = "4:3" := by
          decide
        simp [e, untranslated]
      · have n1 : QString.number a ++ ":" ++ QString.number b ≠ "16:9" := by
          intro hc
          exact h169 (ratio_text_inj a b 16 9 (by rw [hc]; decide))
        have n2 : QString.number a ++ ":" ++ QString.number b ≠ "16:10" := by
          intro hc
          have := ratio_text_inj a b 16 10 (by rw [hc]; decide)
          rw [this.1, this.2] at hab
          revert hab
          decide
        have n3 : QString.number a ++ ":" ++ QString.number b ≠ "4:3" := by
          intro hc
          exact h43 (ratio_text_inj a b 4 3 (by rw [hc]; decide))
        have c1 : ¬ ((a : Int) = 16 ∧ (b : Int) = 9) := by omega
        have c2 : ¬ ((a : Int) = 8 ∧ (b : Int) = 5) := by omega
        have c3 : ¬ ((a : Int) = 4 ∧ (b : Int) = 3) := by omega
        simp [n1, n2, n3, c1, c2, c3]

/-- Claim C3: for a mode with positive width `w` and height `h` the entry that
`getAvailableResolutions` builds (with untranslated texts) is `w x h` in decimal,
followed by a tab and `(Wide 16:9)` exactly when `w : h` reduces to 16 : 9, by a
tab and `(Wide 16:10)` exactly when it reduces to 8 : 5, by a tab and
`(Standard 4:3)` exactly when it reduces to 4 : 3, and by nothing otherwise. -/
theorem resolutionEntry_aspect_label (w h : Int) (hw : 0 < w) (hh : 0 < h) :
    resolutionEntry untranslated { w := w, h := h } =
      some (QString.number w ++ " x " ++ QString.number h ++
        (if w / (Int.gcd w h : Int) = 16 ∧ h / (Int.gcd w h : Int) = 9 then "\t(Wide 16:9)"
         else if w / (Int.gcd w h : Int) = 8 ∧ h / (Int.gcd w h : Int) = 5 then "\t(Wide 16:10)"
         else if w / (Int.gcd w h : Int) = 4 ∧ h / (Int.gcd w h : Int) = 3 then
           "\t(Standard 4:3)"
         else "")) :=
  resolutionEntry_pos_spec w h hw hh

/-- Witness for C3 at 1920 x 1200, which reduces to 8 : 5. -/
theorem resolutionEntry_aspect_label_witness :
    (0 : Int) < 1920 ∧ (0 : Int) < 1200 ∧
    resolutionEntry untranslated { w := 1920, h := 1200 } = some "1920 x 1200\t(Wide 16:10)" ∧
    resolutionEntry untranslated { w := 1920, h := 1200 } =
      some (QString.number 1920 ++ " x " ++ QString.number 1200 ++
        (if (1920 : Int) / (Int.gcd 1920 1200 : Int) = 16 ∧
            (1200 : Int) / (Int.gcd 1920 1200 : Int) = 9 then "\t(Wide 16:9)"
         else if (1920 : Int) / (Int.gcd 1920 1200 : Int) = 8 ∧
            (1200 : Int) / (Int.gcd 1920 1200 : Int) = 5 then "\t(Wide 16:10)"
         else if (1920 : Int) / (Int.gcd 1920 1200 : Int) = 4 ∧
            (1200 : Int) / (Int.gcd 1920 1200 : Int) = 3 then "\t(Standard 4:3)"
         else "")) :=
  ⟨by decide, by decide, by decide, resolutionEntry_aspect_label 1920 1200 (by decide) (by decide)⟩

/-! ### `removeDuplicates` -/

theorem removeDuplicatesGo_mem (e : String) :
    ∀ (l seen : List String), e ∈ removeDuplicatesGo seen l ↔ e ∈ l ∧ e ∉ seen
  | [], seen => by simp [removeDuplicatesGo]
  | s :: rest, seen => by
    unfold removeDuplicatesGo
    by_cases hs : s ∈ seen
    · rw [if_pos hs, removeDuplicatesGo_mem e rest seen]
      constructor
      · rintro ⟨h1, h2⟩
        exact ⟨List.mem_cons_of_mem _ h1, h2⟩
      · rintro ⟨h1, h2⟩
        rcases List.mem_cons.mp h1 with h | h
        · exact absurd (h ▸ hs) h2
        · exact ⟨h, h2⟩
    · rw [if_neg hs, List.mem_cons, removeDuplicatesGo_mem e rest (s :: seen)]
      constructor
      · rintro (h | ⟨h1, h2⟩)
        · exact ⟨h ▸ List.mem_cons_self _ _, h ▸ hs⟩
        · exact ⟨List.mem_cons_of_mem _ h1, fun h => h2 (List.mem_cons_of_mem _ h)⟩
      · rintro ⟨h1, h2⟩
        by_cases he : e = s
        · exact Or.inl he
        · right
          rcases List.mem_cons.mp h1 with h | h
          · exact absurd h he
          · refine ⟨h, fun hm => ?_⟩
            rcases List.mem_cons.mp hm with h' | h'
            · exact he h'
            · exact h2 h'

theorem removeDuplicatesGo_nodup :
    ∀ (l seen : List String), (removeDuplicatesGo seen l).Nodup
  | [], seen => by simp [removeDuplicatesGo]
  | s :: rest, seen => by
    unfold removeDuplicatesGo
    by_cases hs : s ∈ seen
    · rw [if_pos hs]
      exact removeDuplicatesGo_nodup rest seen
    · rw [if_neg hs, List.nodup_cons]
      refine ⟨fun hm => ?_, removeDuplicatesGo_nodup rest (s :: seen)⟩
      exact ((removeDuplicatesGo_mem s rest (s :: seen)).mp hm).2 (List.mem_cons_self _ _)

theorem removeDuplicatesGo_order :
    ∀ (l seen : List String),
      (removeDuplicatesGo seen l).Pairwise (fun a b => l.indexOf a < l.indexOf b)
  | [], seen => by simp [removeDuplicatesGo]
  | s :: rest, seen => by
    unfold removeDuplicatesGo
    by_cases hs : s ∈ seen
    · rw [if_pos hs]
      refine List.Pairwise.imp_of_mem ?_ (removeDuplicatesGo_order rest seen)
      intro a b ha hb hab
      have ha' := ((removeDuplicatesGo_mem a rest seen).mp ha).2
      have hb' := ((removeDuplicatesGo_mem b rest seen).mp hb).2
      have hane : s ≠ a := fun h => ha' (h ▸ hs)
      have hbne : s ≠ b := fun h => hb' (h ▸ hs)
      rw [List.indexOf_cons_ne _ hane, List.indexOf_cons_ne _ hbne]
      omega
    · rw [if_neg hs, List.pairwise_cons]
      constructor
      · intro b hb
        have hb' := ((removeDuplicatesGo_mem b rest (s :: seen)).mp hb).2
        have hbne : s ≠ b := fun h => hb' (h ▸ List.mem_cons_self _ _)
        rw [List.indexOf_cons_self, List.indexOf_cons_ne _ hbne]
        omega
      · refine List.Pairwise.imp_of_mem ?_ (removeDuplicatesGo_order rest (s :: seen))
        intro a b ha hb hab
        have ha' := ((removeDuplicatesGo_mem a rest (s :: seen)).mp ha).2
        have hb' := ((removeDuplicatesGo_mem b rest (s :: seen)).mp hb).2
        have hane : s ≠ a := fun h => ha' (h ▸ List.mem_cons_self _ _)
        have hbne : s ≠ b := fun h => hb' (h ▸ List.mem_cons_self _ _)
        rw [List.indexOf_cons_ne _ hane, List.indexOf_cons_ne _ hbne]
        omega

/-! ### The loop of `getAvailableResolutions` -/

theorem getAspect_defined (x y : Int) (h : ¬ (x = 0 ∧ y = 0)) :
    ∃ aspect, getAspect x y = some aspect := by
  unfold getAspect
  have hz : boost.math.gcd x y ≠ 0 := by
    unfold boost.math.gcd
    rw [Ne, Int.natCast_eq_zero, Int.gcd_eq_zero_iff]
    exact h
  simp only [hz, if_false]
  split_ifs <;> exact ⟨_, rfl⟩

theorem resolutionEntry_defined (tr : String → String) (mode : SDL_DisplayMode)
    (h : ¬ (mode.w = 0 ∧ mode.h = 0)) :
    ∃ e, Launcher.resolutionEntry tr mode = some e := by
  obtain ⟨aspect, hasp⟩ := getAspect_defined mode.w mode.h h
  unfold Launcher.resolutionEntry
  rw [hasp]
  simp only
  split_ifs <;> exact ⟨_, rfl⟩

theorem queryOk_of (tr : String → String) (sdl : SDL) (screen i : Int)
    (h1 : 0 ≤ (sdl.SDL_GetDisplayMode screen i).1)
    (h2 : ¬ ((sdl.SDL_GetDisplayMode screen i).2.w = 0 ∧ (sdl.SDL_GetDisplayMode screen i).2.h = 0)) :
    queryOk tr sdl screen i := by
  obtain ⟨e, he⟩ := resolutionEntry_defined tr _ h2
  refine ⟨h1, ?_⟩
  unfold entryAt
  rw [he]
  rfl

theorem range_shift (f : Int → String) (i : Int) (n : Nat) (e : List String) :
    e ++ [f i] ++ (List.range n).map (fun k : Nat => f (i + 1 + k)) =
      e ++ (List.range (n + 1)).map (fun k : Nat => f (i + k)) := by
  rw [List.range_succ_eq_map, List.map_cons, List.map_map, List.append_assoc]
  have hf : ∀ k : Nat, f (i + 1 + k) = f (i + ((k + 1 : Nat) : Int)) := by
    intro k
    congr 1
    push_cast
    ring
  simp [Function.comp, hf]

theorem loop_all_ok (tr : String → String) (sdl : SDL) (screen : Int) :
    ∀ (n : Nat) (i : Int) (result : List String),
      (∀ k : Nat, k < n → queryOk tr sdl screen (i + k)) →
      Launcher.getAvailableResolutionsLoop tr sdl screen n i result =
        some ([], QStringList.removeDuplicates
          (result ++ (List.range n).map (fun k : Nat => entryAt tr sdl screen (i + k))))
  | 0, i, result, _ => by simp [Launcher.getAvailableResolutionsLoop]
  | n + 1, i, result, h => by
    have h0 := h 0 (Nat.succ_pos n)
    simp only [Nat.cast_zero, add_zero] at h0
    unfold Launcher.getAvailableResolutionsLoop
    rw [if_neg (not_lt.mpr h0.1), h0.2]
    simp only
    rw [loop_all_ok tr sdl screen n (i + 1) _ (fun k hk => by
      have := h (k + 1) (Nat.succ_lt_succ hk)
      rw [Nat.cast_succ, ← add_assoc, add_right_comm] at this
      exact this)]
    rw [range_shift (entryAt tr sdl screen)]

theorem loop_fails_at (tr : String → String) (sdl : SDL) (screen : Int) :
    ∀ (k n : Nat) (i : Int) (result : List String), k < n →
      (∀ j : Nat, j < k → queryOk tr sdl screen (i + j)) →
      (sdl.SDL_GetDisplayMode screen (i + k)).1 < 0 →
      Launcher.getAvailableResolutionsLoop tr sdl screen n i result =
        some ([Launcher.resolutionError tr sdl "<br><b>SDL_GetDisplayMode failed:</b><br><br>"],
          result ++ (List.range k).map (fun j : Nat => entryAt tr sdl screen (i + j)))
  | 0, n + 1, i, result, _, _, hf => by
    simp only [Nat.cast_zero, add_zero] at hf
    unfold Launcher.getAvailableResolutionsLoop
    rw [if_pos hf]
    simp
  | k + 1, n + 1, i, result, hk, h, hf => by
    have h0 := h 0 (Nat.succ_pos k)
    simp only [Nat.cast_zero, add_zero] at h0
    unfold Launcher.getAvailableResolutionsLoop
    rw [if_neg (not_lt.mpr h0.1), h0.2]
    simp only
    rw [loop_fails_at tr sdl screen k n (i + 1) _ (by omega) (fun j hj => by
      have := h (j + 1) (Nat.succ_lt_succ hj)
      rw [Nat.cast_succ, ← add_assoc, add_right_comm] at this
      exact this) (by
      rw [Nat.cast_succ, ← add_assoc, add_right_comm] at hf
      exact hf)]
    rw [range_shift (entryAt tr sdl screen)]

theorem indexOf_le_of_getElem (b : String) :
    ∀ (l : List String) (j : Nat) (h : j < l.length), l[j] = b → l.indexOf b ≤ j
  | [], _, h, _ => absurd h (Nat.not_lt_zero _)
  | s :: rest, 0, _, hb => by
    simp only [List.getElem_cons_zero] at hb
    rw [hb, List.indexOf_cons_self]
  | s :: rest, j + 1, h, hb => by
    by_cases hs : s = b
    · rw [hs, List.indexOf_cons_self]
      omega
    · rw [List.indexOf_cons_ne _ hs]
      simp only [List.getElem_cons_succ] at hb
      have := indexOf_le_of_getElem b rest j (by simpa using h) hb
      omega

/-- The list returned when every query succeeds and every mode has an entry. -/
theorem getAvailableResolutions_all_ok (tr : String → String) (sdl : SDL) (screen : Int)
    (hmodes : 0 ≤ sdl.SDL_GetNumDisplayModes screen)
    (hok : ∀ i : Int, 0 ≤ i → i < sdl.SDL_GetNumDisplayModes screen → queryOk tr sdl screen i) :
    Launcher.getAvailableResolutions tr sdl screen =
      some ([], QStringList.removeDuplicates
        ((List.range (sdl.SDL_GetNumDisplayModes screen).toNat).map
          (fun k : Nat => entryAt tr sdl screen k))) := by
  unfold Launcher.getAvailableResolutions
  simp only [not_lt.mpr hmodes, if_false]
  rw [loop_all_ok tr sdl screen _ 0 [] (fun k hk => by
    rw [zero_add]
    exact hok k (Int.natCast_nonneg _) (by omega))]
  simp

/-- The list returned when every query succeeds and builds an entry: no
duplicates, the entry of every mode, in the order of the first reports. -/
theorem getAvailableResolutions_success_spec (tr : String → String) (sdl : SDL) (screen : Int)
    (hmodes : 0 ≤ sdl.SDL_GetNumDisplayModes screen)
    (hq : ∀ i : Int, 0 ≤ i → i < sdl.SDL_GetNumDisplayModes screen → queryOk tr sdl screen i) :
    ∃ result, Launcher.getAvailableResolutions tr sdl screen = some ([], result) ∧
      result.Nodup ∧
      (∀ i : Int, 0 ≤ i → i < sdl.SDL_GetNumDisplayModes screen →
        ∃ e, Launcher.resolutionEntry tr (sdl.SDL_GetDisplayMode screen i).2 = some e ∧
          e ∈ result) ∧
      (∀ e ∈ result, ∃ i : Int, 0 ≤ i ∧ i < sdl.SDL_GetNumDisplayModes screen ∧
        Launcher.resolutionEntry tr (sdl.SDL_GetDisplayMode screen i).2 = some e) ∧
      result.Pairwise (fun a b =>
        ∃ i : Int, 0 ≤ i ∧ i < sdl.SDL_GetNumDisplayModes screen ∧
          Launcher.resolutionEntry tr (sdl.SDL_GetDisplayMode screen i).2 = some a ∧
          ∀ j : Int, 0 ≤ j → j < sdl.SDL_GetNumDisplayModes screen →
            Launcher.resolutionEntry tr (sdl.SDL_GetDisplayMode screen j).2 = some b → i < j) := by
  set n := (sdl.SDL_GetNumDisplayModes screen).toNat with hn
  set raw := (List.range n).map (fun k : Nat => entryAt tr sdl screen k) with hraw
  have hlen : raw.length = n := by simp [hraw]
  have hget : ∀ (k : Nat) (hk : k < raw.length), raw[k] = entryAt tr sdl screen k := by
    intro k hk
    simp [hraw]
  have hmem : ∀ e, e ∈ QStringList.removeDuplicates raw ↔ e ∈ raw := by
    intro e
    unfold QStringList.removeDuplicates
    rw [removeDuplicatesGo_mem]
    simp
  refine ⟨QStringList.removeDuplicates raw, getAvailableResolutions_all_ok tr sdl screen hmodes hq,
    removeDuplicatesGo_nodup raw [], ?_, ?_, ?_⟩
  · intro i h0 h1
    refine ⟨entryAt tr sdl screen i, (hq i h0 h1).2, ?_⟩
    rw [hmem, hraw, List.mem_map]
    exact ⟨i.toNat, List.mem_range.mpr (by omega), by rw [Int.toNat_of_nonneg h0]⟩
  · intro e he
    rw [hmem, hraw, List.mem_map] at he
    obtain ⟨k, hk, rfl⟩ := he
    have hk2 := List.mem_range.mp hk
    exact ⟨k, Int.natCast_nonneg _, by omega, (hq k (Int.natCast_nonneg _) (by omega)).2⟩
  · refine List.Pairwise.imp_of_mem ?_ (removeDuplicatesGo_order raw [])
    intro a b ha _ hab
    have ha2 : raw.indexOf a < raw.length := List.indexOf_lt_length.mpr ((hmem a).mp ha)
    have hai : raw[raw.indexOf a] = a := List.getElem_indexOf ha2
    rw [hget _ ha2] at hai
    have hbound : ((raw.indexOf a : Nat) : Int) < sdl.SDL_GetNumDisplayModes screen := by omega
    refine ⟨(raw.indexOf a : Nat), Int.natCast_nonneg _, hbound, ?_, ?_⟩
    · rw [(hq _ (Int.natCast_nonneg _) hbound).2, hai]
    · intro j h0 h1 hj
      have hjlt : j.toNat < raw.length := by omega
      have hjb : raw[j.toNat] = b := by
        rw [hget _ hjlt, Int.toNat_of_nonneg h0]
        have := (hq j h0 h1).2
        rw [hj] at this
        exact (Option.some.inj this).symm
      have := indexOf_le_of_getElem b raw j.toNat hjlt hjb
      omega

theorem loop_some_queryOk (tr : String → String) (sdl : SDL) (screen : Int) :
    ∀ (n : Nat) (i : Int) (result : List String) (r : List QMessageBox × List String),
      getAvailableResolutionsLoop tr sdl screen n i result = some r →
      ∀ k : Nat, k ≤ n → (∀ j : Nat, j < k → 0 ≤ (sdl.SDL_GetDisplayMode screen (i + j)).1) →
        ∀ j : Nat, j < k → queryOk tr sdl screen (i + j)
  | 0, _, _, _, _, k, hk, _, j, hj => absurd hj (by omega)
  | n + 1, i, result, r, h, k, hk, hok, j, hj => by
    have h0 : 0 ≤ (sdl.SDL_GetDisplayMode screen i).1 := by
      have := hok 0 (by omega)
      simpa using this
    unfold getAvailableResolutionsLoop at h
    rw [if_neg (not_lt.mpr h0)] at h
    cases he : resolutionEntry tr (sdl.SDL_GetDisplayMode screen i).2 with
    | none => rw [he] at h; exact Option.noConfusion h
    | some e =>
      rw [he] at h
      simp only at h
      cases j with
      | zero =>
        simp only [Nat.cast_zero, add_zero]
        refine ⟨h0, ?_⟩
        unfold entryAt
        rw [he]
        rfl
      | succ j =>
        have := loop_some_queryOk tr sdl screen n (i + 1) _ r h (k - 1) (by omega)
          (fun j hj => by
            have := hok (j + 1) (by omega)
            rw [Nat.cast_succ, ← add_assoc, add_right_comm] at this
            exact this) j (by omega)
        rw [Nat.cast_succ, ← add_assoc, add_right_comm]
        exact this

/-- When the function returns and the queries before index `k` succeed, an
entry was built for each of them. -/
theorem getAvailableResolutions_some_queryOk (tr : String → String) (sdl : SDL) (screen : Int)
    (r : List QMessageBox × List String)
    (h : getAvailableResolutions tr sdl screen = some r)
    (hmodes : 0 ≤ sdl.SDL_GetNumDisplayModes screen) (k : Nat)
    (hk : (k : Int) ≤ sdl.SDL_GetNumDisplayModes screen)
    (hok : ∀ j : Nat, j < k → 0 ≤ (sdl.SDL_GetDisplayMode screen j).1) :
    ∀ j : Nat, j < k → queryOk tr sdl screen j := by
  unfold getAvailableResolutions at h
  simp only [not_lt.mpr hmodes, if_false] at h
  intro j hj
  have := loop_some_queryOk tr sdl screen _ 0 [] r h k (by omega)
    (fun j hj => by rw [zero_add]; exact hok j hj) j hj
  rw [zero_add] at this
  exact this

/-- Claim C2: when the mode-count query and the query of every mode succeed, the
list that `getAvailableResolutions` returns (no message box is shown) has no two
equal entries, holds the entry of every reported mode and only such entries, and
keeps them in the order of their first report: of two entries the earlier one is
the entry of a mode reported before every mode that has the later entry.  The
list is returned whenever no reported mode is 0 x 0, the one case in which
`getAspect` divides by zero. -/
theorem getAvailableResolutions_deduplicated (tr : String → String) (sdl : SDL) (screen : Int)
    (hmodes : 0 ≤ sdl.SDL_GetNumDisplayModes screen)
    (hok : ∀ i : Int, 0 ≤ i → i < sdl.SDL_GetNumDisplayModes screen →
      0 ≤ (sdl.SDL_GetDisplayMode screen i).1) :
    (∀ boxes result, getAvailableResolutions tr sdl screen = some (boxes, result) →
      boxes = [] ∧ result.Nodup ∧
      (∀ i : Int, 0 ≤ i → i < sdl.SDL_GetNumDisplayModes screen →
        ∃ e, resolutionEntry tr (sdl.SDL_GetDisplayMode screen i).2 = some e ∧ e ∈ result) ∧
      (∀ e ∈ result, ∃ i : Int, 0 ≤ i ∧ i < sdl.SDL_GetNumDisplayModes screen ∧
        resolutionEntry tr (sdl.SDL_GetDisplayMode screen i).2 = some e) ∧
      result.Pairwise (fun a b =>
        ∃ i : Int, 0 ≤ i ∧ i < sdl.SDL_GetNumDisplayModes screen ∧
          resolutionEntry tr (sdl.SDL_GetDisplayMode screen i).2 = some a ∧
          ∀ j : Int, 0 ≤ j → j < sdl.SDL_GetNumDisplayModes screen →
            resolutionEntry tr (sdl.SDL_GetDisplayMode screen j).2 = some b → i < j)) ∧
    ((∀ i : Int, 0 ≤ i → i < sdl.SDL_GetNumDisplayModes screen →
        ¬ ((sdl.SDL_GetDisplayMode screen i).2.w = 0 ∧ (sdl.SDL_GetDisplayMode screen i).2.h = 0)) →
      ∃ result, getAvailableResolutions tr sdl screen = some ([], result)) := by
  constructor
  · intro boxes result h
    have hq : ∀ i : Int, 0 ≤ i → i < sdl.SDL_GetNumDisplayModes screen →
        queryOk tr sdl screen i := by
      intro i h0 h1
      have := getAvailableResolutions_some_queryOk tr sdl screen _ h hmodes
        (sdl.SDL_GetNumDisplayModes screen).toNat (by omega)
        (fun j hj => hok j (Int.natCast_nonneg _) (by omega)) i.toNat (by omega)
      rw [Int.toNat_of_nonneg h0] at this
      exact this
    obtain ⟨result2, h2, hnd, hall, honly, hord⟩ :=
      getAvailableResolutions_success_spec tr sdl screen hmodes hq
    rw [h] at h2
    have e1 : boxes = [] := (Prod.mk.inj (Option.some.inj h2)).1
    have e2 : result = result2 := (Prod.mk.inj (Option.some.inj h2)).2
    rw [e2]
    exact ⟨e1, hnd, hall, honly, hord⟩
  · intro hmode
    obtain ⟨result, h, -⟩ := getAvailableResolutions_success_spec tr sdl screen hmodes
      (fun i h0 h1 => queryOk_of tr sdl screen i (hok i h0 h1) (hmode i h0 h1))
    exact ⟨result, h⟩

/-- Witness for C2 on a display that reports 1920 x 1080, 640 x 480 and 1920 x 1080
again. -/
theorem getAvailableResolutions_deduplicated_witness :
    getAvailableResolutions untranslated sdlThreeModes 0 =
      some ([], ["1920 x 1080\t(Wide 16:9)", "640 x 480\t(Standard 4:3)"]) ∧
    ∃ result, getAvailableResolutions untranslated sdlThreeModes 0 = some ([], result) :=
  ⟨by decide,
    (getAvailableResolutions_deduplicated untranslated sdlThreeModes 0 (by decide)
      (fun i _ _ => by
        show (0 : Int) ≤ (if i = 0 then _ else if i = 1 then _ else _ : Int × SDL_DisplayMode).1
        split_ifs <;> decide)).2
      (fun i _ _ => by
        show ¬ ((if i = 0 then _ else if i = 1 then _ else _ : Int × SDL_DisplayMode).2.w = 0 ∧
          (if i = 0 then _ else if i = 1 then _ else _ : Int × SDL_DisplayMode).2.h = 0)
        split_ifs <;> decide)⟩

/-- Claim C6 (amended): a failed mode-count query shows the error box and returns
the empty list.  When the query of mode `k` is the first to fail, the function
shows the error box and returns the entries built for the modes before `k`, in
the order reported and with their duplicates: `k` entries, the empty list only
for `k = 0`.  It returns whenever none of the modes before `k` is 0 x 0. -/
theorem getAvailableResolutions_failure (tr : String → String) (sdl : SDL) (screen : Int) :
    (sdl.SDL_GetNumDisplayModes screen < 0 →
      getAvailableResolutions tr sdl screen =
        some ([resolutionError tr sdl "<br><b>SDL_GetNumDisplayModes failed:</b><br><br>"], [])) ∧
    (∀ k : Nat, (k : Int) < sdl.SDL_GetNumDisplayModes screen →
      (∀ j : Nat, j < k → 0 ≤ (sdl.SDL_GetDisplayMode screen j).1) →
      (sdl.SDL_GetDisplayMode screen k).1 < 0 →
      (∀ boxes result, getAvailableResolutions tr sdl screen = some (boxes, result) →
        boxes = [resolutionError tr sdl "<br><b>SDL_GetDisplayMode failed:</b><br><br>"] ∧
        result.length = k ∧
        ∀ j : Nat, j < k →
          result[j]? = resolutionEntry tr (sdl.SDL_GetDisplayMode screen j).2) ∧
      ((∀ j : Nat, j < k →
          ¬ ((sdl.SDL_GetDisplayMode screen j).2.w = 0 ∧
            (sdl.SDL_GetDisplayMode screen j).2.h = 0)) →
        ∃ result, getAvailableResolutions tr sdl screen =
          some ([resolutionError tr sdl "<br><b>SDL_GetDisplayMode failed:</b><br><br>"],
            result))) := by
  constructor
  · intro h
    unfold getAvailableResolutions
    simp only [h, if_true]
  · intro k hk hok hfail
    have hmodes : 0 ≤ sdl.SDL_GetNumDisplayModes screen := by omega
    have hshape : (∀ j : Nat, j < k → queryOk tr sdl screen j) →
        getAvailableResolutions tr sdl screen =
          some ([resolutionError tr sdl "<br><b>SDL_GetDisplayMode failed:</b><br><br>"],
            (List.range k).map (fun j : Nat => entryAt tr sdl screen j)) := by
      intro hq
      unfold getAvailableResolutions
      simp only [not_lt.mpr hmodes, if_false]
      rw [loop_fails_at tr sdl screen k _ 0 [] (by omega)
        (fun j hj => by rw [zero_add]; exact hq j hj) (by rw [zero_add]; exact hfail)]
      simp
    constructor
    · intro boxes result h
      have hq := getAvailableResolutions_some_queryOk tr sdl screen _ h hmodes k (by omega) hok
      have h2 := hshape hq
      rw [h] at h2
      have e1 := (Prod.mk.inj (Option.some.inj h2)).1
      have e2 := (Prod.mk.inj (Option.some.inj h2)).2
      refine ⟨e1, by rw [e2]; simp, ?_⟩
      intro j hj
      rw [e2, (hq j hj).2]
      simp [List.getElem?_range hj]
    · intro hmode
      exact ⟨_, hshape (fun j hj => queryOk_of tr sdl screen j (hok j hj) (hmode j hj))⟩

/-- Counterexample to C6 as stated: the query of the second mode fails, and the
function returns the entry of the first mode, not the empty list. -/
theorem getAvailableResolutions_failure_keeps_entries :
    (sdlSecondQueryFails.SDL_GetDisplayMode 0 1).1 < 0 ∧
    getAvailableResolutions untranslated sdlSecondQueryFails 0 =
      some ([{ windowTitle := "Error receiving resolutions"
               text := "<br><b>SDL_GetDisplayMode failed:</b><br><br>no such mode<br>" }],
        ["640 x 480\t(Standard 4:3)"]) ∧
    ¬ (∃ boxes, getAvailableResolutions untranslated sdlSecondQueryFails 0 = some (boxes, [])) := by
  refine ⟨by decide, by decide, ?_⟩
  rintro ⟨boxes, h⟩
  have h2 : getAvailableResolutions untranslated sdlSecondQueryFails 0 =
      some ([{ windowTitle := "Error receiving resolutions"
               text := "<br><b>SDL_GetDisplayMode failed:</b><br><br>no such mode<br>" }],
        ["640 x 480\t(Standard 4:3)"]) := by decide
  rw [h2] at h
  exact absurd (Prod.mk.inj (Option.some.inj h)).2 (by decide)

/-- Witness for C6 (amended) on the display whose second query fails. -/
theorem getAvailableResolutions_failure_witness :
    ((1 : Nat) : Int) < sdlSecondQueryFails.SDL_GetNumDisplayModes 0 ∧
    (sdlSecondQueryFails.SDL_GetDisplayMode 0 ((1 : Nat) : Int)).1 < 0 ∧
    ∃ result, getAvailableResolutions untranslated sdlSecondQueryFails 0 =
      some ([resolutionError untranslated sdlSecondQueryFails
        "<br><b>SDL_GetDisplayMode failed:</b><br><br>"], result) :=
  ⟨by decide, by decide,
    ((getAvailableResolutions_failure untranslated sdlSecondQueryFails 0).2 1 (by decide)
      (fun j hj => by
        have : j = 0 := by omega
        subst this
        decide) (by decide)).2
      (fun j hj => by
        have : j = 0 := by omega
        subst this
        decide)⟩

theorem saveSettings_eq_steps (s : Settings.Manager) (p : GraphicsPage) :
    saveSettings s p =
      syncInt (syncInt (syncInt (syncInt (syncBool (syncBool (syncBool s
        "vsync" (uiValues p).vsync)
        "fullscreen" (uiValues p).fullscreen)
        "window border" (uiValues p).windowBorder)
        "antialiasing" (uiValues p).antialiasing)
        "resolution x" (uiValues p).resolutionX)
        "resolution y" (uiValues p).resolutionY)
        "screen" (uiValues p).screen := rfl

theorem syncBool_calls (s : Settings.Manager) (k : String) (c : Bool) :
    (syncBool s k c).calls =
      s.calls ++ (if s.getBool k "Video" ≠ c then [Settings.Call.setBool k "Video" c] else []) := by
  unfold syncBool
  split_ifs <;> simp [Settings.Manager.setBool]

theorem syncInt_calls (s : Settings.Manager) (k : String) (c : Int) :
    (syncInt s k c).calls =
      s.calls ++ (if s.getInt k "Video" ≠ c then [Settings.Call.setInt k "Video" c] else []) := by
  unfold syncInt
  split_ifs <;> simp [Settings.Manager.setInt]

theorem syncBool_getBool (s : Settings.Manager) (k : String) (c : Bool) (st cat : String) :
    (syncBool s k c).getBool st cat =
      if st = k ∧ cat = "Video" then c else s.getBool st cat := by
  unfold syncBool
  by_cases h : s.getBool k "Video" = c
  · simp only [ne_eq, h, not_true_eq_false, if_false]
    split_ifs with h2
    · rw [h2.1, h2.2, h]
    · rfl
  · simp only [ne_eq, h, not_false_eq_true, if_true]
    rfl

theorem syncBool_getInt (s : Settings.Manager) (k : String) (c : Bool) (st cat : String) :
    (syncBool s k c).getInt st cat = s.getInt st cat := by
  unfold syncBool
  split_ifs <;> rfl

theorem syncInt_getInt (s : Settings.Manager) (k : String) (c : Int) (st cat : String) :
    (syncInt s k c).getInt st cat =
      if st = k ∧ cat = "Video" then c else s.getInt st cat := by
  unfold syncInt
  by_cases h : s.getInt k "Video" = c
  · simp only [ne_eq, h, not_true_eq_false, if_false]
    split_ifs with h2
    · rw [h2.1, h2.2, h]
    · rfl
  · simp only [ne_eq, h, not_false_eq_true, if_true]
    rfl

theorem syncInt_getBool (s : Settings.Manager) (k : String) (c : Int) (st cat : String) :
    (syncInt s k c).getBool st cat = s.getBool st cat := by
  unfold syncInt
  split_ifs <;> rfl

theorem saveSettings_spec (s : Settings.Manager) (p : GraphicsPage) :
    (saveSettings s p).calls = s.calls ++ expectedCalls (storedValues s) (uiValues p) ∧
    storedValues (saveSettings s p) = uiValues p ∧
    (∀ setting category : String,
      ¬ (category = "Video" ∧
        (setting = "vsync" ∨ setting = "fullscreen" ∨ setting = "window border")) →
      (saveSettings s p).getBool setting category = s.getBool setting category) ∧
    (∀ setting category : String,
      ¬ (category = "Video" ∧
        (setting = "antialiasing" ∨ setting = "resolution x" ∨ setting = "resolution y" ∨
          setting = "screen")) →
      (saveSettings s p).getInt setting category = s.getInt setting category) ∧
    (storedValues s = uiValues p → saveSettings s p = s) := by
  rw [saveSettings_eq_steps]
  refine ⟨?_, ?_, ?_, ?_, ?_⟩
  · simp only [syncBool_calls, syncInt_calls, syncBool_getBool, syncInt_getInt, syncBool_getInt,
      syncInt_getBool, expectedCalls, storedValues, List.append_assoc]
    simp
  · simp only [storedValues, syncBool_getBool, syncInt_getInt, syncBool_getInt, syncInt_getBool]
    simp
  · intro st cat h
    simp only [syncBool_getBool, syncInt_getBool]
    have h1 : ¬ (st = "vsync" ∧ cat = "Video") := fun hh => h ⟨hh.2, Or.inl hh.1⟩
    have h2 : ¬ (st = "fullscreen" ∧ cat = "Video") := fun hh => h ⟨hh.2, Or.inr (Or.inl hh.1)⟩
    have h3 : ¬ (st = "window border" ∧ cat = "Video") :=
      fun hh => h ⟨hh.2, Or.inr (Or.inr hh.1)⟩
    rw [if_neg h3, if_neg h2, if_neg h1]
  · intro st cat h
    simp only [syncInt_getInt, syncBool_getInt]
    have h1 : ¬ (st = "antialiasing" ∧ cat = "Video") := fun hh => h ⟨hh.2, Or.inl hh.1⟩
    have h2 : ¬ (st = "resolution x" ∧ cat = "Video") :=
      fun hh => h ⟨hh.2, Or.inr (Or.inl hh.1)⟩
    have h3 : ¬ (st = "resolution y" ∧ cat = "Video") :=
      fun hh => h ⟨hh.2, Or.inr (Or.inr (Or.inl hh.1))⟩
    have h4 : ¬ (st = "screen" ∧ cat = "Video") :=
      fun hh => h ⟨hh.2, Or.inr (Or.inr (Or.inr hh.1))⟩
    rw [if_neg h4, if_neg h3, if_neg h2, if_neg h1]
  · intro h
    have hv := congrArg VideoValues.vsync h
    have hf := congrArg VideoValues.fullscreen h
    have hw := congrArg VideoValues.windowBorder h
    have ha := congrArg VideoValues.antialiasing h
    have hx := congrArg VideoValues.resolutionX h
    have hy := congrArg VideoValues.resolutionY h
    have hs := congrArg VideoValues.screen h
    simp only [storedValues] at hv hf hw ha hx hy hs
    have e1 : syncBool s "vsync" (uiValues p).vsync = s := by
      unfold syncBool; rw [if_neg (not_not.mpr hv)]
    rw [e1]
    have e2 : syncBool s "fullscreen" (uiValues p).fullscreen = s := by
      unfold syncBool; rw [if_neg (not_not.mpr hf)]
    rw [e2]
    have e3 : syncBool s "window border" (uiValues p).windowBorder = s := by
      unfold syncBool; rw [if_neg (not_not.mpr hw)]
    rw [e3]
    have e4 : syncInt s "antialiasing" (uiValues p).antialiasing = s := by
      unfold syncInt; rw [if_neg (not_not.mpr ha)]
    rw [e4]
    have e5 : syncInt s "resolution x" (uiValues p).resolutionX = s := by
      unfold syncInt; rw [if_neg (not_not.mpr hx)]
    rw [e5]
    have e6 : syncInt s "resolution y" (uiValues p).resolutionY = s := by
      unfold syncInt; rw [if_neg (not_not.mpr hy)]
    rw [e6]
    unfold syncInt; rw [if_neg (not_not.mpr hs)]

/-- Claim C4: `saveSettings` writes one of the seven Video settings exactly when
the value read from the page differs from the stored one, and writes the value of
the page (the calls made are those of `expectedCalls`, in this order, and no
others); afterwards the seven settings hold the values of the page, every other
setting reads as before, and when the seven values already agree the store is
left as it is. -/
theorem saveSettings_writes_differences (s : Settings.Manager) (p : GraphicsPage) :
    (saveSettings s p).calls = s.calls ++ expectedCalls (storedValues s) (uiValues p) ∧
    storedValues (saveSettings s p) = uiValues p ∧
    (∀ setting category : String,
      ¬ (category = "Video" ∧
        (setting = "vsync" ∨ setting = "fullscreen" ∨ setting = "window border")) →
      (saveSettings s p).getBool setting category = s.getBool setting category) ∧
    (∀ setting category : String,
      ¬ (category = "Video" ∧
        (setting = "antialiasing" ∨ setting = "resolution x" ∨ setting = "resolution y" ∨
          setting = "screen")) →
      (saveSettings s p).getInt setting category = s.getInt setting category) ∧
    (storedValues s = uiValues p → saveSettings s p = s) :=
  saveSettings_spec s p

/-- Witness for C4: a page that shows what the store holds leaves the store
unchanged, and a page that differs in width and height causes these two
writes. -/
theorem saveSettings_writes_differences_witness :
    storedValues (storeWithResolution 0 0) = uiValues settledPage ∧
    saveSettings (storeWithResolution 0 0) settledPage = storeWithResolution 0 0 ∧
    (saveSettings (storeWithResolution 800 600) settledPage).calls =
      [Settings.Call.setInt "resolution x" "Video" 0,
        Settings.Call.setInt "resolution y" "Video" 0] :=
  ⟨by decide,
    (saveSettings_writes_differences (storeWithResolution 0 0) settledPage).2.2.2.2 (by decide),
    by decide⟩

/-- Claim C10: when the standard mode is selected and the simplified text of the
resolution drop-down does not match the pattern, `saveSettings` takes 0 and 0
as the width and height of the page, and the store holds 0 for `resolution x`
and for `resolution y` afterwards, whatever it held before. -/
theorem saveSettings_unmatched_resolution (s : Settings.Manager) (p : GraphicsPage)
    (hstd : p.standardRadioButton.checked = true)
    (hno : QRegExp.exactMatch (QString.simplified p.resolutionComboBox.currentText) = none) :
    uiResolution p = (0, 0) ∧
    (saveSettings s p).getInt "resolution x" "Video" = 0 ∧
    (saveSettings s p).getInt "resolution y" "Video" = 0 := by
  have hui : uiResolution p = (0, 0) := by
    unfold uiResolution
    rw [if_pos hstd, hno]
  have hst := (saveSettings_spec s p).2.1
  have hx := congrArg VideoValues.resolutionX hst
  have hy := congrArg VideoValues.resolutionY hst
  simp only [storedValues, uiValues, hui] at hx hy
  exact ⟨hui, hx, hy⟩

/-- Witness for C10: the standard mode with an empty resolution drop-down, over a
store that held 800 x 600. -/
theorem saveSettings_unmatched_resolution_witness :
    emptyStandardPage.standardRadioButton.checked = true ∧
    emptyStandardPage.resolutionComboBox.currentText = "" ∧
    QRegExp.exactMatch (QString.simplified emptyStandardPage.resolutionComboBox.currentText) =
      none ∧
    (storeWithResolution 800 600).getInt "resolution x" "Video" = 800 ∧
    (uiResolution emptyStandardPage = (0, 0) ∧
      (saveSettings (storeWithResolution 800 600) emptyStandardPage).getInt
        "resolution x" "Video" = 0 ∧
      (saveSettings (storeWithResolution 800 600) emptyStandardPage).getInt
        "resolution y" "Video" = 0) :=
  ⟨by decide, by decide, by decide, by decide,
    saveSettings_unmatched_resolution (storeWithResolution 800 600) emptyStandardPage
      (by decide) (by decide)⟩

theorem simplifiedGo_run : ∀ (ds : List Char), ds ≠ [] → (∀ c ∈ ds, QChar.isSpace c = false) →
    ∀ (started pending : Bool) (rest : List Char),
      QString.simplifiedGo started pending (ds ++ rest) =
        (if started && pending then [' '] else []) ++ ds ++ QString.simplifiedGo true false rest
  | [], h, _ => absurd rfl h
  | [c], _, hc => by
    intro started pending rest
    have h1 := hc c (List.mem_singleton.mpr rfl)
    rw [List.singleton_append, QString.simplifiedGo]
    simp only [h1, Bool.false_eq_true, if_false]
    cases started <;> cases pending <;> simp
  | c :: c' :: ds, _, hc => by
    intro started pending rest
    have h1 := hc c (List.mem_cons_self _ _)
    have ih := simplifiedGo_run (c' :: ds) (List.cons_ne_nil _ _)
      (fun x hx => hc x (List.mem_cons_of_mem _ hx)) true false rest
    rw [List.cons_append, QString.simplifiedGo]
    simp only [h1, Bool.false_eq_true, if_false]
    rw [ih]
    cases started <;> cases pending <;> simp

theorem simplifiedGo_pending_head : ∀ (l : List Char),
    QString.simplifiedGo true true l = [] ∨ ∃ r, QString.simplifiedGo true true l = ' ' :: r
  | [] => Or.inl rfl
  | c :: cs => by
    unfold QString.simplifiedGo
    by_cases hc : QChar.isSpace c = true
    · rw [if_pos hc]
      exact simplifiedGo_pending_head cs
    · rw [if_neg hc]
      exact Or.inr ⟨_, rfl⟩

theorem simplifiedGo_noDigitAhead (l : List Char) (h : noDigitAhead l) :
    noDigitAhead (QString.simplifiedGo true false l) := by
  cases l with
  | nil => intro c hc; simp [QString.simplifiedGo] at hc
  | cons a as =>
    unfold QString.simplifiedGo
    by_cases ha : QChar.isSpace a = true
    · rw [if_pos ha]
      rcases simplifiedGo_pending_head as with h0 | ⟨r, hr⟩
      · rw [h0]; intro c hc; simp at hc
      · rw [hr]
        intro c hc
        simp only [List.head?_cons, Option.some.injEq] at hc
        rw [← hc]
        decide
    · rw [if_neg ha]
      simp only [Bool.and_false, Bool.false_eq_true, if_false]
      intro c hc
      simp only [List.head?_cons, Option.some.injEq] at hc
      exact h c (by simp [hc])

theorem spanDigits_run : ∀ (ds rest : List Char), (∀ c ∈ ds, QChar.isDigit c = true) →
    noDigitAhead rest → spanDigits (ds ++ rest) = (ds, rest)
  | [], rest, _, hr => by
    cases rest with
    | nil => rfl
    | cons a as =>
      have := hr a rfl
      simp [spanDigits, this]
  | c :: cs, rest, hd, hr => by
    have h1 := hd c (List.mem_cons_self _ _)
    have ih := spanDigits_run cs rest (fun x hx => hd x (List.mem_cons_of_mem _ hx)) hr
    rw [List.cons_append, spanDigits]
    simp [h1, ih]

theorem atoiDigits_run : ∀ (ds : List Char) (acc : Int), (∀ c ∈ ds, QChar.isDigit c = true) →
    atoiDigits acc ds = ds.foldl (fun a c => a * 10 + ((c.toNat - 48 : Nat) : Int)) acc
  | [], _, _ => rfl
  | c :: cs, acc, hd => by
    have h1 := hd c (List.mem_cons_self _ _)
    rw [atoiDigits, if_pos h1, List.foldl_cons]
    exact atoiDigits_run cs _ (fun x hx => hd x (List.mem_cons_of_mem _ hx))

theorem atoi_digits (ds : List Char) (hne : ds ≠ []) (hd : ∀ c ∈ ds, QChar.isDigit c = true) :
    atoi (String.mk ds) = digitsValue ds := by
  cases ds with
  | nil => exact absurd rfl hne
  | cons c cs =>
    have h1 := hd c (List.mem_cons_self _ _)
    have hsp : isspace c = false := by
      by_contra hs
      have hs' : isspace c = true := by simpa using hs
      simp only [isspace, Bool.or_eq_true, beq_iff_eq] at hs'
      rcases hs' with ((((h | h) | h) | h) | h) | h <;> (rw [h] at h1; revert h1; decide)
    have hm : c ≠ '-' := fun h => by rw [h] at h1; revert h1; decide
    have hp : c ≠ '+' := fun h => by rw [h] at h1; revert h1; decide
    unfold atoi atoiSkip
    simp only [hsp, Bool.false_eq_true, if_false]
    have : atoiSigned (c :: cs) = atoiDigits 0 (c :: cs) := by
      unfold atoiSigned
      split
      · rename_i heq; exact absurd (List.cons.inj heq).1 hm
      · rename_i heq; exact absurd (List.cons.inj heq).1 hp
      · rfl
    rw [this, atoiDigits_run _ _ hd]
    rfl

theorem atoi_toDigits (n : Nat) : atoi (String.mk (Nat.toDigits 10 n)) = (n : Int) := by
  rw [atoi_digits _ (toDigits_ne_nil n) (fun c hc => (toDigits_all n c hc).1),
    digitsValue_toDigits]

/-- The parse of `saveSettings` on a text made of two decimal numbers around
`" x "` and a tail that does not start with a digit. -/
theorem parseResolution_numbers (w h : Nat) (tail : String) (ht : noDigitAhead tail.data) :
    parseResolution (QString.number w ++ " x " ++ QString.number h ++ tail) =
      some ((w : Int), (h : Int)) := by
  have hw := toDigits_all w
  have hh := toDigits_all h
  have hsimp : (QString.simplified (QString.number w ++ " x " ++ QString.number h ++ tail)).data =
      Nat.toDigits 10 w ++ ' ' :: 'x' :: ' ' ::
        (Nat.toDigits 10 h ++ QString.simplifiedGo true false tail.data) := by
    unfold QString.simplified
    simp only [number_nat, String.data_append, List.append_assoc]
    rw [simplifiedGo_run _ (toDigits_ne_nil w) (fun c hc => (hw c hc).2.1)]
    simp only [List.cons_append, List.nil_append, QString.simplifiedGo]
    have s1 : QChar.isSpace ' ' = true := by decide
    have s2 : QChar.isSpace 'x' = false := by decide
    simp only [s1, s2, if_true, Bool.false_eq_true, if_false, Bool.and_self]
    have e : ([] : List Char).append (Nat.toDigits 10 h ++ tail.data) =
        Nat.toDigits 10 h ++ tail.data := rfl
    rw [e, simplifiedGo_run _ (toDigits_ne_nil h) (fun c hc => (hh c hc).2.1)]
    simp
  have hrest : noDigitAhead (QString.simplifiedGo true false tail.data) :=
    simplifiedGo_noDigitAhead _ ht
  have hspan1 : spanDigits (QString.simplified
      (QString.number w ++ " x " ++ QString.number h ++ tail)).data =
      (Nat.toDigits 10 w, ' ' :: 'x' :: ' ' ::
        (Nat.toDigits 10 h ++ QString.simplifiedGo true false tail.data)) := by
    rw [hsimp]
    apply spanDigits_run _ _ (fun c hc => (hw c hc).1)
    intro c hc
    simp only [List.head?_cons, Option.some.injEq] at hc
    rw [← hc]
    decide
  have hspan2 := spanDigits_run (Nat.toDigits 10 h) _ (fun c hc => (hh c hc).1) hrest
  obtain ⟨c, cs, hcs⟩ : ∃ c cs, Nat.toDigits 10 w = c :: cs := by
    cases hl : Nat.toDigits 10 w with
    | nil => exact absurd hl (toDigits_ne_nil w)
    | cons c cs => exact ⟨c, cs, rfl⟩
  obtain ⟨d, ds, hds⟩ : ∃ d ds, Nat.toDigits 10 h = d :: ds := by
    cases hl : Nat.toDigits 10 h with
    | nil => exact absurd hl (toDigits_ne_nil h)
    | cons d ds => exact ⟨d, ds, rfl⟩
  have hmatch : QRegExp.exactMatch (QString.simplified
      (QString.number w ++ " x " ++ QString.number h ++ tail)) =
      some (String.mk (Nat.toDigits 10 w), String.mk (Nat.toDigits 10 h)) := by
    unfold QRegExp.exactMatch
    rw [hspan1, hcs]
    simp only
    rw [hspan2, hds]
  unfold parseResolution
  rw [hmatch]
  simp only [Option.map_some', atoi_toDigits]

theorem resolutionEntry_shape (mode : SDL_DisplayMode) (e : String)
    (h : resolutionEntry untranslated mode = some e) :
    ∃ suffix ∈ ["", "\t(Wide 16:9)", "\t(Wide 16:10)", "\t(Standard 4:3)"],
      e = QString.number mode.w ++ " x " ++ QString.number mode.h ++ suffix := by
  unfold resolutionEntry at h
  cases hasp : getAspect mode.w mode.h with
  | none => rw [hasp] at h; exact Option.noConfusion h
  | some aspect =>
    rw [hasp] at h
    simp only [untranslated] at h
    by_cases h1 : aspect = "16:9"
    · subst h1
      simp only [true_or, if_true, Option.some.injEq] at h
      exact ⟨"\t(Wide 16:9)", by simp, h.symm⟩
    · by_cases h2 : aspect = "16:10"
      · subst h2
        simp only [or_true, if_true, Option.some.injEq] at h
        exact ⟨"\t(Wide 16:10)", by simp, h.symm⟩
      · by_cases h3 : aspect = "4:3"
        · subst h3
          simp only [h1, h2, or_self, if_false, if_true, Option.some.injEq] at h
          exact ⟨"\t(Standard 4:3)", by simp, h.symm⟩
        · simp only [h1, h2, h3, or_self, if_false, Option.some.injEq] at h
          exact ⟨"", by simp, by rw [← h]; simp⟩

/-- In standard mode the width and height `saveSettings` reads are the parse of
the current text of the drop-down. -/
theorem uiResolution_of_parse (p : GraphicsPage) (w h : Int)
    (hstd : p.standardRadioButton.checked = true)
    (hparse : parseResolution p.resolutionComboBox.currentText = some (w, h)) :
    uiResolution p = (w, h) := by
  unfold uiResolution
  rw [if_pos hstd]
  unfold parseResolution at hparse
  cases hm : QRegExp.exactMatch (QString.simplified p.resolutionComboBox.currentText) with
  | none => rw [hm] at hparse; exact Option.noConfusion hparse
  | some cap =>
    rw [hm] at hparse
    exact Option.some.inj hparse

/-- Claim C7: for a mode with width `w >= 0` and height `h >= 0`, the parse of
`saveSettings` in standard mode (simplify the text, match it in full against the
pattern, convert the two groups with `atoi`) gives exactly `w` and `h` on the
text `w x h` alone and followed by each of the three aspect suffixes, hence on
the entry that `getAvailableResolutions` builds for the mode; `saveSettings` on a
page in standard mode that shows this entry stores `w` and `h`.  Such an entry
is built unless the mode is 0 x 0. -/
theorem listing_saving_round_trip (w h : Int) (hw : 0 ≤ w) (hh : 0 ≤ h) :
    (∀ suffix ∈ ["", "\t(Wide 16:9)", "\t(Wide 16:10)", "\t(Standard 4:3)"],
      parseResolution (QString.number w ++ " x " ++ QString.number h ++ suffix) = some (w, h)) ∧
    (∀ e, resolutionEntry untranslated { w := w, h := h } = some e →
      parseResolution e = some (w, h) ∧
      ∀ (s : Settings.Manager) (p : GraphicsPage), p.standardRadioButton.checked = true →
        p.resolutionComboBox.currentText = e →
        (saveSettings s p).getInt "resolution x" "Video" = w ∧
        (saveSettings s p).getInt "resolution y" "Video" = h) ∧
    (¬ (w = 0 ∧ h = 0) → ∃ e, resolutionEntry untranslated { w := w, h := h } = some e) := by
  have key : ∀ suffix ∈ ["", "\t(Wide 16:9)", "\t(Wide 16:10)", "\t(Standard 4:3)"],
      parseResolution (QString.number w ++ " x " ++ QString.number h ++ suffix) = some (w, h) := by
    intro suffix hs
    have hsuf : noDigitAhead suffix.data := by
      simp only [List.mem_cons, List.mem_singleton, List.not_mem_nil, or_false] at hs
      rcases hs with rfl | rfl | rfl | rfl <;> (intro c hc; revert hc; simp <;> (rintro rfl; decide))
    have := parseResolution_numbers w.toNat h.toNat suffix hsuf
    rw [Int.toNat_of_nonneg hw, Int.toNat_of_nonneg hh] at this
    exact this
  refine ⟨key, ?_, fun hne => resolutionEntry_defined untranslated { w := w, h := h } hne⟩
  intro e he
  obtain ⟨suffix, hs, rfl⟩ := resolutionEntry_shape { w := w, h := h } e he
  refine ⟨key suffix hs, ?_⟩
  intro s p hstd htext
  have hui := uiResolution_of_parse p w h hstd (by rw [htext]; exact key suffix hs)
  have hst := (saveSettings_spec s p).2.1
  have hx := congrArg VideoValues.resolutionX hst
  have hy := congrArg VideoValues.resolutionY hst
  simp only [storedValues, uiValues, hui] at hx hy
  exact ⟨hx, hy⟩

/-- Witness for C7 at 1920 x 1080. -/
theorem listing_saving_round_trip_witness :
    (0 : Int) ≤ 1920 ∧ (0 : Int) ≤ 1080 ∧
    resolutionEntry untranslated { w := 1920, h := 1080 } = some "1920 x 1080\t(Wide 16:9)" ∧
    parseResolution "1920 x 1080\t(Wide 16:9)" = some (1920, 1080) ∧
    (∀ e, resolutionEntry untranslated { w := 1920, h := 1080 } = some e →
      parseResolution e = some (1920, 1080) ∧
      ∀ (s : Settings.Manager) (p : GraphicsPage), p.standardRadioButton.checked = true →
        p.resolutionComboBox.currentText = e →
        (saveSettings s p).getInt "resolution x" "Video" = 1920 ∧
        (saveSettings s p).getInt "resolution y" "Video" = 1080) :=
  ⟨by decide, by decide, by decide, by decide,
    (listing_saving_round_trip 1920 1080 (by decide) (by decide)).2.1⟩

theorem loadSettings_eq_parts (tr : String → String) (sdl : SDL) (s : Settings.Manager)
    (p : GraphicsPage) :
    loadSettings tr sdl s p =
      match setupSDL tr sdl p with
      | none => none
      | some (false, p) => some (false, p)
      | some (true, p) =>
        match screenComboBox_setCurrentIndex tr sdl (loadSettingsWidgets s p)
          (s.getInt "screen" "Video") with
        | none => none
        | some p =>
          some (true, loadSettingsResolution p (s.getInt "resolution x" "Video")
            (s.getInt "resolution y" "Video")) := by
  unfold loadSettings loadSettingsResolution loadSettingsWidgets
  cases setupSDL tr sdl p with
  | none => rfl
  | some r =>
    obtain ⟨b, q⟩ := r
    cases b with
    | false => rfl
    | true =>
      simp only
      cases screenComboBox_setCurrentIndex tr sdl _ (s.getInt "screen" "Video") with
      | none => rfl
      | some q' =>
        simp only
        split_ifs <;> rfl

theorem loop_ne_none (tr : String → String) (sdl : SDL) (screen : Int) (hm : noEmptyMode sdl) :
    ∀ (n : Nat) (i : Int) (result : List String),
      getAvailableResolutionsLoop tr sdl screen n i result ≠ none
  | 0, _, _ => by simp [getAvailableResolutionsLoop]
  | n + 1, i, result => by
    unfold getAvailableResolutionsLoop
    split_ifs with h
    · simp
    · obtain ⟨e, he⟩ := resolutionEntry_defined tr _ (hm screen i)
      rw [he]
      exact loop_ne_none tr sdl screen hm n (i + 1) _

theorem getAvailableResolutions_ne_none (tr : String → String) (sdl : SDL) (screen : Int)
    (hm : noEmptyMode sdl) : getAvailableResolutions tr sdl screen ≠ none := by
  unfold getAvailableResolutions
  simp only
  split_ifs
  · simp
  · exact loop_ne_none tr sdl screen hm _ _ _

theorem screenChanged_some (tr : String → String) (sdl : SDL) (hm : noEmptyMode sdl)
    (p : GraphicsPage) (screen : Int) :
    ∃ q, screenChanged tr sdl p screen = some q ∧ sameRadios p q := by
  unfold screenChanged
  split_ifs
  · cases h : getAvailableResolutions tr sdl screen with
    | none => exact absurd h (getAvailableResolutions_ne_none tr sdl screen hm)
    | some r => exact ⟨_, rfl, rfl, rfl⟩
  · exact ⟨p, rfl, rfl, rfl⟩

theorem screenComboBox_changed_some (tr : String → String) (sdl : SDL) (hm : noEmptyMode sdl)
    (old : QComboBox) (p : GraphicsPage) :
    ∃ q, screenComboBox_changed tr sdl old p = some q ∧ sameRadios p q := by
  unfold screenComboBox_changed
  split_ifs
  · exact screenChanged_some tr sdl hm p _
  · exact ⟨p, rfl, rfl, rfl⟩

theorem setupSDLLoop_some (tr : String → String) (sdl : SDL) (hm : noEmptyMode sdl) :
    ∀ (n : Nat) (i : Int) (p : GraphicsPage),
      ∃ q, setupSDLLoop tr sdl n i p = some q ∧ sameRadios p q
  | 0, _, p => ⟨p, rfl, rfl, rfl⟩
  | n + 1, i, p => by
    unfold setupSDLLoop screenComboBox_addItem
    obtain ⟨q, hq, hr⟩ := screenComboBox_changed_some tr sdl hm p.screenComboBox
      { p with screenComboBox := p.screenComboBox.addItems [tr "Screen " ++ QString.number (i + 1)] }
    rw [hq]
    obtain ⟨q', hq', hr'⟩ := setupSDLLoop_some tr sdl hm n (i + 1) q
    exact ⟨q', hq', hr'.1.trans hr.1, hr'.2.trans hr.2⟩

theorem setupSDL_some (tr : String → String) (sdl : SDL) (hm : noEmptyMode sdl)
    (hd : 0 ≤ sdl.SDL_GetNumVideoDisplays) (p : GraphicsPage) :
    ∃ q, setupSDL tr sdl p = some (true, q) ∧ sameRadios p q := by
  unfold setupSDL screenComboBox_clear
  simp only [not_lt.mpr hd, if_false]
  obtain ⟨q, hq, hr⟩ := screenComboBox_changed_some tr sdl hm p.screenComboBox
    { p with screenComboBox := p.screenComboBox.clear }
  rw [hq]
  obtain ⟨q', hq', hr'⟩ := setupSDLLoop_some tr sdl hm sdl.SDL_GetNumVideoDisplays.toNat 0 q
  simp only
  rw [hq']
  exact ⟨q', rfl, hr'.1.trans hr.1, hr'.2.trans hr.2⟩

theorem standardRadioButton_toggle_checked (p : GraphicsPage) (h : exclusive p) :
    (standardRadioButton_toggle p).standardRadioButton.checked = true ∧
    (standardRadioButton_toggle p).customRadioButton.checked = false ∧
    (standardRadioButton_toggle p).resolutionComboBox.items = p.resolutionComboBox.items := by
  unfold standardRadioButton_toggle
  by_cases hs : p.standardRadioButton.checked = true
  · rw [if_pos hs]
    refine ⟨hs, ?_, rfl⟩
    cases hc : p.customRadioButton.checked
    · rfl
    · exact absurd ⟨hs, hc⟩ h
  · rw [if_neg hs]
    exact ⟨rfl, rfl, rfl⟩

theorem customRadioButton_toggle_checked (p : GraphicsPage) (h : exclusive p) :
    (customRadioButton_toggle p).standardRadioButton.checked = false ∧
    (customRadioButton_toggle p).customRadioButton.checked = true ∧
    (customRadioButton_toggle p).resolutionComboBox.items = p.resolutionComboBox.items := by
  unfold customRadioButton_toggle
  by_cases hc : p.customRadioButton.checked = true
  · rw [if_pos hc]
    refine ⟨?_, hc, rfl⟩
    cases hs : p.standardRadioButton.checked
    · rfl
    · exact absurd ⟨hs, hc⟩ h
  · rw [if_neg hc]
    by_cases hs : p.standardRadioButton.checked = true
    · rw [if_pos hs]
      exact ⟨rfl, rfl, rfl⟩
    · rw [if_neg hs]
      refine ⟨?_, rfl, rfl⟩
      simpa using hs

theorem loadSettingsWidgets_exclusive (s : Settings.Manager) (p : GraphicsPage)
    (h : exclusive p) : exclusive (loadSettingsWidgets s p) := by
  have hfs : ∀ q : GraphicsPage, exclusive q →
      exclusive (fullScreenCheckBox_setCheckState q Qt.CheckState.Checked) := by
    intro q hq
    unfold fullScreenCheckBox_setCheckState
    split_ifs
    · exact hq
    · unfold slotFullScreenChanged
      rw [if_pos rfl]
      have := standardRadioButton_toggle_checked
        { q with fullScreenCheckBox := { q.fullScreenCheckBox with checkState := Qt.CheckState.Checked } } hq
      intro hb
      simp only at hb
      rw [this.2.1] at hb
      exact Bool.noConfusion hb.2
  unfold loadSettingsWidgets
  simp only
  split_ifs <;> first | exact h | exact hfs _ h
  

theorem findRow_none (p : String → Bool) :
    ∀ (l : List String) (i : Int), (∀ e ∈ l, p e = false) → findRow p l i = -1
  | [], _, _ => rfl
  | s :: rest, i, h => by
    unfold findRow
    rw [h s (List.mem_cons_self _ _)]
    simp only [Bool.false_eq_true, if_false]
    exact findRow_none p rest (i + 1) (fun e he => h e (List.mem_cons_of_mem _ he))

theorem findRow_found (p : String → Bool) :
    ∀ (l : List String) (i : Int), (∃ e ∈ l, p e = true) →
      ∃ k : Nat, findRow p l i = i + k ∧ k < l.length ∧ p (l.getD k "") = true ∧
        l.getD k "" ∈ l
  | [], _, h => by
    obtain ⟨e, he, _⟩ := h
    exact absurd he (List.not_mem_nil _)
  | s :: rest, i, h => by
    unfold findRow
    by_cases hs : p s = true
    · rw [if_pos hs]
      exact ⟨0, by simp, by simp, by simpa using hs, by simp⟩
    · rw [if_neg hs]
      have h' : ∃ e ∈ rest, p e = true := by
        obtain ⟨e, he, hpe⟩ := h
        rcases List.mem_cons.mp he with rfl | he'
        · exact absurd hpe hs
        · exact ⟨e, he', hpe⟩
      obtain ⟨k, hk1, hk2, hk3, hk4⟩ := findRow_found p rest (i + 1) h'
      refine ⟨k + 1, ?_, by simpa using hk2, by simpa using hk3, ?_⟩
      · rw [hk1]
        push_cast
        ring
      · simp only [List.getD_cons_succ]
        exact List.mem_cons_of_mem _ hk4

theorem startsWithFolded_append : ∀ (t r : List Char), startsWithFolded (t ++ r) t = true
  | [], r => by cases r <;> rfl
  | c :: cs, r => by
    rw [List.cons_append, startsWithFolded, startsWithFolded_append cs r]
    simp

theorem resolutionEntry_begins (tr : String → String) (mode : SDL_DisplayMode) (e : String)
    (h : resolutionEntry tr mode = some e) :
    ∃ suffix : String, e = QString.number mode.w ++ " x " ++ QString.number mode.h ++ suffix := by
  unfold resolutionEntry at h
  cases hasp : getAspect mode.w mode.h with
  | none => rw [hasp] at h; exact Option.noConfusion h
  | some aspect =>
    rw [hasp] at h
    simp only at h
    split_ifs at h
    · exact ⟨_, (Option.some.inj h).symm⟩
    · exact ⟨_, (Option.some.inj h).symm⟩
    · exact ⟨"", by rw [← Option.some.inj h]; simp⟩

/-- The choice of the resolution mode by lines 104 to 113 of `loadSettings`. -/
theorem loadSettingsResolution_spec (tr : String → String) (p : GraphicsPage) (W H : Int)
    (hex : exclusive p) :
    (loadSettingsResolution p W H).resolutionComboBox.items = p.resolutionComboBox.items ∧
    ((∃ e ∈ p.resolutionComboBox.items, resolutionEntry tr ⟨W, H⟩ = some e) →
      (loadSettingsResolution p W H).standardRadioButton.checked = true ∧
      (loadSettingsResolution p W H).customRadioButton.checked = false ∧
      (loadSettingsResolution p W H).resolutionComboBox.currentText ∈
        p.resolutionComboBox.items ∧
      startsWithFolded (loadSettingsResolution p W H).resolutionComboBox.currentText.data
        (QString.number W ++ " x " ++ QString.number H).data = true) ∧
    ((∀ e ∈ p.resolutionComboBox.items,
        startsWithFolded e.data (QString.number W ++ " x " ++ QString.number H).data = false) →
      (loadSettingsResolution p W H).standardRadioButton.checked = false ∧
      (loadSettingsResolution p W H).customRadioButton.checked = true ∧
      (loadSettingsResolution p W H).customWidthSpinBox.value =
        max (loadSettingsResolution p W H).customWidthSpinBox.minimum
          (min (loadSettingsResolution p W H).customWidthSpinBox.maximum W) ∧
      (loadSettingsResolution p W H).customHeightSpinBox.value =
        max (loadSettingsResolution p W H).customHeightSpinBox.minimum
          (min (loadSettingsResolution p W H).customHeightSpinBox.maximum H)) := by
  have hst := standardRadioButton_toggle_checked p hex
  have hct := customRadioButton_toggle_checked p hex
  refine ⟨?_, ?_, ?_⟩
  · unfold loadSettingsResolution
    simp only
    split_ifs
    · exact hst.2.2
    · exact hct.2.2
  · rintro ⟨e, he, hentry⟩
    obtain ⟨suffix, rfl⟩ := resolutionEntry_begins tr ⟨W, H⟩ e hentry
    have hex' : ∃ e ∈ p.resolutionComboBox.items,
        (fun item : String => startsWithFolded item.data
          (QString.number W ++ " x " ++ QString.number H).data) e = true :=
      ⟨_, he, by simp only [String.data_append]; exact startsWithFolded_append _ _⟩
    obtain ⟨k, hk1, hk2, hk3, hk4⟩ := findRow_found _ p.resolutionComboBox.items 0 hex'
    rw [zero_add] at hk1
    have hidx : (QComboBox.findTextStartsWith p.resolutionComboBox
        (QString.number W ++ " x " ++ QString.number H)) = (k : Int) := hk1
    have hne : (k : Int) ≠ -1 := by omega
    unfold loadSettingsResolution
    simp only [hidx, hne, ne_eq, not_false_eq_true, if_true]
    refine ⟨hst.1, hst.2.1, ?_, ?_⟩
    · unfold QComboBox.currentText QComboBox.setCurrentIndex
      simp only [hst.2.2]
      have hin : (0 : Int) ≤ k ∧ (k : Int) < (p.resolutionComboBox.items.length : Int) :=
        ⟨by omega, by omega⟩
      simp only [hin, and_self, if_true, Int.toNat_ofNat]
      exact hk4
    · unfold QComboBox.currentText QComboBox.setCurrentIndex
      simp only [hst.2.2]
      have hin : (0 : Int) ≤ k ∧ (k : Int) < (p.resolutionComboBox.items.length : Int) :=
        ⟨by omega, by omega⟩
      simp only [hin, and_self, if_true, Int.toNat_ofNat]
      exact hk3
  · intro hnone
    have hidx : (QComboBox.findTextStartsWith p.resolutionComboBox
        (QString.number W ++ " x " ++ QString.number H)) = -1 :=
      findRow_none _ _ 0 hnone
    unfold loadSettingsResolution
    simp only [hidx, ne_eq, not_true_eq_false, if_false]
    exact ⟨hct.1, hct.2.1, rfl, rfl⟩

/-- Claim C8, which the code does not keep: from any page, after
`slotFullScreenChanged (Qt::Checked)` and then `slotFullScreenChanged
(Qt::Unchecked)` the standard mode is selected and both custom spin boxes are
enabled; and after `slotStandardToggled (true)`, `slotFullScreenChanged
(Qt::Checked)` and `slotStandardToggled (false)` full screen is checked and both
custom spin boxes are enabled. -/
theorem slots_enable_spin_boxes (p : GraphicsPage) :
    ((callSlots p [SlotCall.fullScreenChanged Qt.CheckState.Checked,
        SlotCall.fullScreenChanged Qt.CheckState.Unchecked]).standardRadioButton.checked = true ∧
      (callSlots p [SlotCall.fullScreenChanged Qt.CheckState.Checked,
        SlotCall.fullScreenChanged Qt.CheckState.Unchecked]).customWidthSpinBox.enabled = true ∧
      (callSlots p [SlotCall.fullScreenChanged Qt.CheckState.Checked,
        SlotCall.fullScreenChanged Qt.CheckState.Unchecked]).customHeightSpinBox.enabled = true) ∧
    ((callSlots p [SlotCall.standardToggled true,
        SlotCall.fullScreenChanged Qt.CheckState.Checked,
        SlotCall.standardToggled false]).fullScreenCheckBox.checkState =
          Qt.CheckState.Checked ∧
      (callSlots p [SlotCall.standardToggled true,
        SlotCall.fullScreenChanged Qt.CheckState.Checked,
        SlotCall.standardToggled false]).customWidthSpinBox.enabled = true ∧
      (callSlots p [SlotCall.standardToggled true,
        SlotCall.fullScreenChanged Qt.CheckState.Checked,
        SlotCall.standardToggled false]).customHeightSpinBox.enabled = true) := by
  refine ⟨⟨?_, rfl, rfl⟩, ⟨rfl, rfl, rfl⟩⟩
  cases hs : p.standardRadioButton.checked <;>
    simp [callSlots, callSlot, slotFullScreenChanged, standardRadioButton_toggle,
      slotStandardToggled, Qt.CheckState.toInt, hs]

theorem screenChanged_sameRadios (tr : String → String) (sdl : SDL) (p q : GraphicsPage)
    (screen : Int) (h : screenChanged tr sdl p screen = some q) : sameRadios p q := by
  unfold screenChanged at h
  split_ifs at h
  · cases hr : getAvailableResolutions tr sdl screen with
    | none => rw [hr] at h; exact Option.noConfusion h
    | some r =>
      rw [hr] at h
      have := Option.some.inj h
      rw [← this]
      exact ⟨rfl, rfl⟩
  · have := Option.some.inj h
    rw [← this]
    exact ⟨rfl, rfl⟩

theorem screenComboBox_changed_sameRadios (tr : String → String) (sdl : SDL) (old : QComboBox)
    (p q : GraphicsPage) (h : screenComboBox_changed tr sdl old p = some q) : sameRadios p q := by
  unfold screenComboBox_changed at h
  split_ifs at h
  · exact screenChanged_sameRadios tr sdl p q _ h
  · have := Option.some.inj h
    rw [← this]
    exact ⟨rfl, rfl⟩

theorem setupSDLLoop_sameRadios (tr : String → String) (sdl : SDL) :
    ∀ (n : Nat) (i : Int) (p q : GraphicsPage),
      setupSDLLoop tr sdl n i p = some q → sameRadios p q
  | 0, _, p, q, h => by
    have := Option.some.inj h
    rw [← this]
    exact ⟨rfl, rfl⟩
  | n + 1, i, p, q, h => by
    unfold setupSDLLoop at h
    cases h1 : screenComboBox_addItem tr sdl p (tr "Screen " ++ QString.number (i + 1)) with
    | none => rw [h1] at h; exact Option.noConfusion h
    | some p1 =>
      rw [h1] at h
      have r1 : sameRadios p p1 := by
        have := screenComboBox_changed_sameRadios tr sdl _ _ _ h1
        exact this
      have r2 := setupSDLLoop_sameRadios tr sdl n (i + 1) p1 q h
      exact ⟨r2.1.trans r1.1, r2.2.trans r1.2⟩

theorem setupSDL_sameRadios (tr : String → String) (sdl : SDL) (p q : GraphicsPage)
    (h : setupSDL tr sdl p = some (true, q)) : sameRadios p q := by
  unfold setupSDL at h
  simp only at h
  split_ifs at h
  · exact absurd (Prod.mk.inj (Option.some.inj h)).1 (by decide)
  · cases h1 : screenComboBox_clear tr sdl p with
    | none => rw [h1] at h; exact Option.noConfusion h
    | some p1 =>
      rw [h1] at h
      simp only at h
      have r1 : sameRadios p p1 :=
        screenComboBox_changed_sameRadios tr sdl p.screenComboBox
          { p with screenComboBox := p.screenComboBox.clear } p1 h1
      cases h2 : setupSDLLoop tr sdl sdl.SDL_GetNumVideoDisplays.toNat 0 p1 with
      | none => rw [h2] at h; exact Option.noConfusion h
      | some p2 =>
        rw [h2] at h
        have r2 := setupSDLLoop_sameRadios tr sdl _ _ p1 p2 h2
        have e : p2 = q := (Prod.mk.inj (Option.some.inj h)).2
        rw [← e]
        exact ⟨r2.1.trans r1.1, r2.2.trans r1.2⟩

theorem exclusive_of_sameRadios (p q : GraphicsPage) (h : sameRadios p q) (hex : exclusive p) :
    exclusive q := by
  unfold exclusive
  rw [h.1, h.2]
  exact hex

/-- Claim C5 (amended): when `loadSettings` returns true, with `W` and `H` the
stored width and height: if the resolution drop-down holds the entry of the mode
`W x H`, the standard mode is selected and the selected entry is an entry of the
list whose text begins with `W x H`; if no entry of the list begins with
`W x H`, the custom mode is selected and each custom spin box holds the stored
value brought into the range of the box.  `loadSettings` returns true whenever
the display count is not negative and no reported mode is 0 x 0. -/
theorem loadSettings_resolution_mode (tr : String → String) (sdl : SDL)
    (s : Settings.Manager) (p : GraphicsPage) (hex : exclusive p) :
    (∀ q, loadSettings tr sdl s p = some (true, q) →
      ((∃ e ∈ q.resolutionComboBox.items,
          resolutionEntry tr
            { w := s.getInt "resolution x" "Video", h := s.getInt "resolution y" "Video" } =
            some e) →
        q.standardRadioButton.checked = true ∧ q.customRadioButton.checked = false ∧
        q.resolutionComboBox.currentText ∈ q.resolutionComboBox.items ∧
        startsWithFolded q.resolutionComboBox.currentText.data
          (QString.number (s.getInt "resolution x" "Video") ++ " x " ++
            QString.number (s.getInt "resolution y" "Video")).data = true) ∧
      ((∀ e ∈ q.resolutionComboBox.items,
          startsWithFolded e.data
            (QString.number (s.getInt "resolution x" "Video") ++ " x " ++
              QString.number (s.getInt "resolution y" "Video")).data = false) →
        q.standardRadioButton.checked = false ∧ q.customRadioButton.checked = true ∧
        q.customWidthSpinBox.value =
          max q.customWidthSpinBox.minimum
            (min q.customWidthSpinBox.maximum (s.getInt "resolution x" "Video")) ∧
        q.customHeightSpinBox.value =
          max q.customHeightSpinBox.minimum
            (min q.customHeightSpinBox.maximum (s.getInt "resolution y" "Video")))) ∧
    (0 ≤ sdl.SDL_GetNumVideoDisplays → noEmptyMode sdl →
      ∃ q, loadSettings tr sdl s p = some (true, q)) := by
  constructor
  · intro q h
    rw [loadSettings_eq_parts] at h
    cases h1 : setupSDL tr sdl p with
    | none => rw [h1] at h; exact Option.noConfusion h
    | some r =>
      obtain ⟨b, p1⟩ := r
      rw [h1] at h
      cases b with
      | false => exact absurd (Prod.mk.inj (Option.some.inj h)).1 (by decide)
      | true =>
        simp only at h
        have ex1 : exclusive p1 :=
          exclusive_of_sameRadios p p1 (setupSDL_sameRadios tr sdl p p1 h1) hex
        have ex2 := loadSettingsWidgets_exclusive s p1 ex1
        cases h2 : screenComboBox_setCurrentIndex tr sdl (loadSettingsWidgets s p1)
            (s.getInt "screen" "Video") with
        | none => rw [h2] at h; exact Option.noConfusion h
        | some p4 =>
          rw [h2] at h
          have ex4 : exclusive p4 :=
            exclusive_of_sameRadios _ p4 (screenComboBox_changed_sameRadios tr sdl _ _ _ h2) ex2
          have e : loadSettingsResolution p4 (s.getInt "resolution x" "Video")
              (s.getInt "resolution y" "Video") = q := (Prod.mk.inj (Option.some.inj h)).2
          have spec := loadSettingsResolution_spec tr p4 (s.getInt "resolution x" "Video")
            (s.getInt "resolution y" "Video") ex4
          rw [e] at spec
          obtain ⟨hitems, hA, hB⟩ := spec
          rw [← hitems] at hA hB
          exact ⟨hA, hB⟩
  · intro hd hm
    rw [loadSettings_eq_parts]
    obtain ⟨p1, h1, -⟩ := setupSDL_some tr sdl hm hd p
    rw [h1]
    simp only
    obtain ⟨p4, h4, -⟩ := screenComboBox_changed_some tr sdl hm (loadSettingsWidgets s p1).screenComboBox
      { loadSettingsWidgets s p1 with
        screenComboBox :=
          (loadSettingsWidgets s p1).screenComboBox.setCurrentIndex (s.getInt "screen" "Video") }
    have h4b : screenComboBox_setCurrentIndex tr sdl (loadSettingsWidgets s p1)
        (s.getInt "screen" "Video") = some p4 := h4
    rw [h4b]
    exact ⟨_, rfl⟩

/-- Counterexample to C5 as stated.  With 640 x 48 stored and the one entry of the
mode 640 x 480 in the list, the standard mode is selected although no entry of
the list is that of a mode 640 x 48.  With 5000 x 3000 stored, not in the list,
the custom mode is selected and the spin boxes, limited to 1920 and 1080, do
not hold the stored width and height. -/
theorem loadSettings_resolution_mode_counterexample :
    ((loadSettings untranslated sdlVGA (storeWithResolution 640 48) freshPage).map
        resolutionView =
      some
        { returned := true
          standardChecked := true
          customChecked := false
          items := ["640 x 480\t(Standard 4:3)"]
          currentText := "640 x 480\t(Standard 4:3)"
          customWidth := 0
          customHeight := 0 } ∧
      resolutionEntry untranslated { w := 640, h := 48 } = some "640 x 48" ∧
      "640 x 48" ∉ ["640 x 480\t(Standard 4:3)"] ∧
      parseResolution "640 x 480\t(Standard 4:3)" = some (640, 480)) ∧
    ((loadSettings untranslated sdlVGA (storeWithResolution 5000 3000) freshPage).map
        resolutionView =
      some
        { returned := true
          standardChecked := false
          customChecked := true
          items := ["640 x 480\t(Standard 4:3)"]
          currentText := "640 x 480\t(Standard 4:3)"
          customWidth := 1920
          customHeight := 1080 } ∧
      (storeWithResolution 5000 3000).getInt "resolution x" "Video" = 5000 ∧
      (storeWithResolution 5000 3000).getInt "resolution y" "Video" = 3000) := by
  decide

/-- Witness for C5 (amended): 640 x 480 stored, on the display that reports this
mode. -/
theorem loadSettings_resolution_mode_witness :
    exclusive freshPage ∧ 0 ≤ sdlVGA.SDL_GetNumVideoDisplays ∧ noEmptyMode sdlVGA ∧
    (loadSettings untranslated sdlVGA (storeWithResolution 640 480) freshPage).map
        resolutionView =
      some
        { returned := true
          standardChecked := true
          customChecked := false
          items := ["640 x 480\t(Standard 4:3)"]
          currentText := "640 x 480\t(Standard 4:3)"
          customWidth := 0
          customHeight := 0 } ∧
    ∃ q, loadSettings untranslated sdlVGA (storeWithResolution 640 480) freshPage =
      some (true, q) :=
  ⟨by unfold exclusive; decide, by decide, fun _ _ h => absurd (show (640 : Int) = 0 from h.1) (by decide), by decide,
    (loadSettings_resolution_mode untranslated sdlVGA (storeWithResolution 640 480) freshPage
      (by unfold exclusive; decide)).2 (by decide) (fun _ _ h => absurd (show (640 : Int) = 0 from h.1) (by decide))⟩

end OpenMW
